import Mathlib

/- Verification of the per-user agent sandbox lifecycle and interactive-access
gateway of the clawedin repository: a shallow embedding of the relevant parts
of src/identity/kube.py, src/identity/views.py and src/identity/consumers.py,
with strings modelled as lists of characters and the Kubernetes API modelled
as explicit state passing. -/

set_option maxHeartbeats 1000000

/-- Character strings, modelled as lists of characters. -/
abbrev Str := List Char

/-- Coerce a Lean string literal to the `Str` representation. -/
def str (s : String) : Str := s.data

/-- Python whitespace (the regex `\s` class over the ASCII range): space, tab,
newline, carriage return, vertical tab, form feed. -/
def pyIsSpace (c : Char) : Bool :=
  c = ' ' || c = '\t' || c = '\n' || c = '\r' || c = '\x0b' || c = '\x0c'

/-- Python `str.strip` with the stripped character set given as a predicate:
drop matching characters from both ends. -/
def pyStrip (p : Char → Bool) (s : Str) : Str :=
  (s.dropWhile p).rdropWhile p

/-- Python `str.rstrip`: drop matching characters from the right end only. -/
def pyRStrip (p : Char → Bool) (s : Str) : Str :=
  s.rdropWhile p

/-- Models the `unicodedata.normalize("NFKD", value).encode("ascii", "ignore")`
step of `django.utils.text.slugify`: characters in the ASCII plane are kept
unchanged (NFKD is the identity there) and characters outside it are dropped.
The full NFKD decomposition table, under which some non-ASCII characters leave
behind a base ASCII letter instead of disappearing, is not modelled; every
property proved here depends only on the shape of the surviving characters. -/
def asciiFold (c : Char) : Str := if c.toNat < 128 then [c] else []

/-- The regex class `\w` over ASCII after lowercasing: letters, digits, `_`. -/
def isWordChar (c : Char) : Bool := c.isAlphanum || c = '_'

/-- One character of the regex class `[-\s]` used by slugify. -/
def isDashOrSpace (c : Char) : Bool := c = '-' || pyIsSpace c

/-- Models `re.sub(r"[-\s]+", "-", value)`: every maximal run of hyphens and
whitespace characters collapses to a single hyphen. -/
def collapseRuns : Str → Str
  | [] => []
  | [c] => if isDashOrSpace c then ['-'] else [c]
  | c :: d :: rest =>
    if isDashOrSpace c && isDashOrSpace d then collapseRuns (d :: rest)
    else (if isDashOrSpace c then '-' else c) :: collapseRuns (d :: rest)

/-- `django.utils.text.slugify` with `allow_unicode=False`, from
django/utils/text.py: NFKD-normalise and ASCII-fold, lowercase, delete every
character outside `[\w\s-]`, collapse `[-\s]+` runs to `-`, then strip `-`
and `_` from both ends. -/
def slugify (value : Str) : Str :=
  pyStrip (fun c => c = '-' || c = '_')
    (collapseRuns
      ((((value.map asciiFold).flatten).map Char.toLower).filter
        (fun c => isWordChar c || pyIsSpace c || c = '-')))

/-- Decimal rendering of a natural number (Python `str(user_id)` for the
nonnegative integers used as user ids), in fuel/accumulator form; the fuel
`n + 1` always suffices. -/
def natToDecAux : Nat → Nat → Str → Str
  | 0, _, acc => acc
  | fuel + 1, n, acc =>
    if n < 10 then Nat.digitChar n :: acc
    else natToDecAux fuel (n / 10) (Nat.digitChar (n % 10) :: acc)

/-- Decimal rendering of a natural number. -/
def natToDec (n : Nat) : Str := natToDecAux (n + 1) n []

/-- The fallback namespace string `f"user-{user_id}"` of
`normalize_namespace` in src/identity/kube.py. -/
def userFallback (user_id : Nat) : Str := str "user-" ++ natToDec user_id

/-- `normalize_namespace(username, user_id)` from src/identity/kube.py. -/
def normalize_namespace (username : Str) (user_id : Nat) : Str :=
  let ns0 := slugify username
  let ns1 := if ns0 = [] then userFallback user_id else ns0
  let ns2 := pyStrip (fun c => c = '-') (ns1.take 63)
  if ns2 = [] then userFallback user_id else ns2

/-- `resolve_agent_namespace(username, user_id)` from src/identity/kube.py.
The value of the `AGENT_NAMESPACE` environment variable is passed explicitly
(`os.environ.get("AGENT_NAMESPACE", "")` yields the empty string when the
variable is unset). -/
def resolve_agent_namespace (agentNamespaceEnv username : Str) (user_id : Nat) :
    Str × Bool :=
  let forced := pyStrip pyIsSpace agentNamespaceEnv
  if forced ≠ [] then (forced, true)
  else (normalize_namespace username user_id, false)

/-- `normalize_k8s_name(value, fallback)` from src/identity/kube.py. -/
def normalize_k8s_name (value fallback : Str) : Str :=
  let n0 := slugify value
  let n1 := if n0 = [] then fallback else n0
  let n2 := pyStrip (fun c => c = '-') (n1.take 63)
  if n2 = [] then fallback else n2

/-- `gui_service_name(pod_name)` from src/identity/kube.py. -/
def gui_service_name (pod_name : Str) : Str :=
  normalize_k8s_name (str "agent-gui-" ++ pod_name) (str "agent-gui")

/-- `gui_ingress_name(pod_name)` from src/identity/kube.py. -/
def gui_ingress_name (pod_name : Str) : Str :=
  normalize_k8s_name (str "agent-gui-ingress-" ++ pod_name) (str "agent-gui-ingress")

/-- `gui_middleware_name(pod_name)` from src/identity/kube.py. -/
def gui_middleware_name (pod_name : Str) : Str :=
  normalize_k8s_name (str "agent-gui-mw-" ++ pod_name) (str "agent-gui-mw")

/- ### Cluster resource stores and the reconciler read/patch/create pattern -/

/-- A Kubernetes ApiException as observed by the helpers in
src/identity/views.py: only the HTTP status code is inspected
(`getattr(exc, "status", None)`). -/
structure ApiErr where
  status : Nat
deriving DecidableEq

/-- The not-found error raised for a missing object. -/
def notFoundErr : ApiErr := ⟨404⟩

/-- One kind of namespaced cluster resource: ((namespace, name), spec)
entries in creation order. -/
abbrev Store (σ : Type) := List ((Str × Str) × σ)

/-- Look up the first entry with the given namespace and name. -/
def lookupStore {σ : Type} (st : Store σ) (ns name : Str) : Option σ :=
  match st with
  | [] => none
  | (k, v) :: rest => if k = (ns, name) then some v else lookupStore rest ns name

/-- Replace the value of the first entry with the given key. -/
def replaceStore {σ : Type} (st : Store σ) (ns name : Str) (body : σ) : Store σ :=
  match st with
  | [] => []
  | (k, v) :: rest =>
    if k = (ns, name) then (k, body) :: rest else (k, v) :: replaceStore rest ns name body

/-- `read_namespaced_*`: a 404 ApiException when the object is absent. -/
def readResource {σ : Type} (st : Store σ) (ns name : Str) : Except ApiErr σ :=
  match lookupStore st ns name with
  | some v => .ok v
  | none => .error notFoundErr

/-- `patch_namespaced_*`: patch the stored object to the given body (the
callers always patch with the full desired spec); 404 when absent. -/
def patchResource {σ : Type} (st : Store σ) (ns name : Str) (body : σ) :
    Except ApiErr (Store σ) :=
  match lookupStore st ns name with
  | some _ => .ok (replaceStore st ns name body)
  | none => .error notFoundErr

/-- `create_namespaced_*`: append a new entry; 409 (AlreadyExists) when an
object of that name is already present. -/
def createResource {σ : Type} (st : Store σ) (ns name : Str) (body : σ) :
    Except ApiErr (Store σ) :=
  match lookupStore st ns name with
  | some _ => .error ⟨409⟩
  | none => .ok (st ++ [((ns, name), body)])

/-- The shared shape of `_upsert_service`, `_upsert_endpoints`,
`_upsert_ingress` and `_upsert_custom_object` in src/identity/views.py:
try `read` followed by `patch`; when that raises with status 404, `create`;
any other error propagates. -/
def upsertResource {σ : Type} (st : Store σ) (ns name : Str) (body : σ) :
    Except ApiErr (Store σ) :=
  let tryBlock : Except ApiErr (Store σ) :=
    match readResource st ns name with
    | .ok _ => patchResource st ns name body
    | .error e => .error e
  match tryBlock with
  | .ok st2 => .ok st2
  | .error e => if e.status = 404 then createResource st ns name body else .error e

/- ### Pods and pod resolution -/

/-- A pod as observed through the cluster API: name, namespace, start time
(`none` when not yet started), pod IP (`[]` when unset) and labels. -/
structure PodInfo where
  name : Str
  ns : Str
  startTime : Option Nat := none
  podIp : Str := []
  labels : List (Str × Str) := []
deriving DecidableEq

/-- The pods visible through the cluster API. -/
structure KubeState where
  pods : List PodInfo
deriving DecidableEq

/-- `v1.read_namespaced_pod(name, namespace)`: the pod with the given name in
the given namespace, else a 404 ApiException. -/
def read_namespaced_pod (st : KubeState) (name ns : Str) : Except ApiErr PodInfo :=
  match st.pods.find? (fun p => p.name == name && p.ns == ns) with
  | some p => .ok p
  | none => .error notFoundErr

/-- `v1.list_pod_for_all_namespaces(field_selector=f"metadata.name={name}")`. -/
def list_pod_for_all_namespaces (st : KubeState) (name : Str) : List PodInfo :=
  st.pods.filter (fun p => p.name == name)

/-- `v1.list_namespaced_pod(namespace, label_selector)`: the pods of the
namespace whose labels contain every selector pair. -/
def list_namespaced_pod (st : KubeState) (ns : Str) (sel : List (Str × Str)) :
    List PodInfo :=
  st.pods.filter (fun p => p.ns == ns && sel.all (fun kv => p.labels.contains kv))

/-- What `_resolve_pod` can raise: a re-raised cluster ApiException, or the
`RuntimeError("No active exception to re-raise")` produced by its final bare
`raise` statement, which sits after (outside) the `except` block, so the 404
handled there is no longer the active exception when it executes. -/
inductive ResolveErr where
  | api (e : ApiErr)
  | bareRaise
deriving DecidableEq

/-- `_resolve_pod(v1, pod_name, namespace, allow_cross_namespace)` from
src/identity/views.py lines 236-247. -/
def resolve_pod (st : KubeState) (pod_name ns : Str) (allow_cross_namespace : Bool) :
    Except ResolveErr (PodInfo × Str) :=
  match read_namespaced_pod st pod_name ns with
  | .ok pod => .ok (pod, ns)
  | .error exc =>
    if exc.status ≠ 404 ∨ allow_cross_namespace = false then .error (.api exc)
    else
      match list_pod_for_all_namespaces st pod_name with
      | pod :: _ => .ok (pod, pod.ns)
      | [] => .error .bareRaise

/- ### The reverse-proxy resolution stage -/

/-- The sort key `item.status.start_time or datetime.min`. -/
def startKey (p : PodInfo) : Nat := p.startTime.getD 0

/-- Stable insertion of a pod into a descending-by-start-time list: the pod
goes after every pod with an equal or larger key, exactly where Python's
stable `sorted(..., reverse=True)` places it. -/
def insertDesc (p : PodInfo) : List PodInfo → List PodInfo
  | [] => [p]
  | q :: rest =>
    if startKey q < startKey p then p :: q :: rest else q :: insertDesc p rest

/-- `sorted(pods, key=lambda item: item.status.start_time or datetime.min,
reverse=True)`: Python's sorted is stable, and a stable descending sort has a
unique output, computed here by stable insertion. -/
def sortPodsDesc (pods : List PodInfo) : List PodInfo :=
  pods.foldr insertDesc []

/-- The redirect target built by `agent_gui_proxy` when the fallback picks a
differently-named pod: `f"/agents/gui/{pod.metadata.name}/"`, plus the
subpath when one was requested. -/
def guiRedirectTarget (pod_name subpath : Str) : Str :=
  (str "/agents/gui/" ++ pod_name ++ str "/") ++ subpath

/-- The observable outcome of the pod-resolution stage of `agent_gui_proxy`:
a 404 diagnostic page, an error page (non-404 ApiException and the bare-raise
RuntimeError both surface as 502 via the outer handlers), a redirect to the
corrected URL, or proceeding to ensure-exposure and proxying. -/
inductive ProxyResolution where
  | notFoundPage
  | errorPage (status : Nat)
  | redirect (target : Str)
  | proxy (pod : PodInfo) (ns : Str)
deriving DecidableEq

/-- The label selector `f"app=openclaw-agent,owner={request.user.username}"`. -/
def agentSelector (username : Str) : List (Str × Str) :=
  [(str "app", str "openclaw-agent"), (str "owner", username)]

/-- The pod-resolution stage of `agent_gui_proxy(request, pod_name, subpath)`
(src/identity/views.py lines 1292-1328): resolve the pod in the caller's
namespace (staff/superusers may resolve cross-namespace); on a 404
ApiException fall back to a label-selector scan in the expected namespace,
pick the most recently started pod, and redirect when its name differs from
the requested one. -/
def agent_gui_proxy_resolve (st : KubeState) (agentNamespaceEnv username : Str)
    (user_id : Nat) (is_admin : Bool) (pod_name subpath : Str) : ProxyResolution :=
  let ns := (resolve_agent_namespace agentNamespaceEnv username user_id).1
  match resolve_pod st pod_name ns is_admin with
  | .ok (pod, ns2) => .proxy pod ns2
  | .error .bareRaise => .errorPage 502
  | .error (.api exc) =>
    if exc.status ≠ 404 then .errorPage 502
    else
      match sortPodsDesc (list_namespaced_pod st ns (agentSelector username)) with
      | [] => .notFoundPage
      | pod :: _ =>
        if pod.name ≠ pod_name then .redirect (guiRedirectTarget pod.name subpath)
        else .proxy pod ns

/- ### urlsplit / urlunsplit and the Location rewrite -/

/-- Split at the first occurrence of a character (Python `s.split(sep, 1)`),
or `none` when the character does not occur. -/
def splitOnFirst (sep : Char) : Str → Option (Str × Str)
  | [] => none
  | c :: rest =>
    if c = sep then some ([], rest)
    else
      match splitOnFirst sep rest with
      | some (before, after) => some (c :: before, after)
      | none => none

/-- Characters allowed in a URL scheme (`scheme_chars` in urllib.parse). -/
def isSchemeChar (c : Char) : Bool :=
  c.isAlpha || c.isDigit || c = '+' || c = '-' || c = '.'

/-- `_splitnetloc` delimiter set: the netloc extends to the first of
`/`, `?` or `#`. -/
def notNetlocDelim (c : Char) : Bool := !(c = '/' || c = '?' || c = '#')

/-- `urllib.parse.urlsplit` with `allow_fragments=True`, from
Lib/urllib/parse.py, returning (scheme, netloc, path, query, fragment).
Not modelled: the ValueError for mismatched IPv6 brackets in the netloc and
the `_checknetloc` check for non-ASCII netlocs; the theorems that go through
this function carry hypotheses keeping inputs inside the modelled domain. -/
def urlsplit (url : Str) : Str × Str × Str × Str × Str :=
  let schemeRest :=
    match splitOnFirst ':' url with
    | some (before, after) =>
      if before ≠ [] ∧
          (match before.head? with
           | some c => c.isAlpha
           | none => false) = true ∧
          before.all isSchemeChar
      then (before.map Char.toLower, after)
      else (([] : Str), url)
    | none => (([] : Str), url)
  let scheme := schemeRest.1
  let rest := schemeRest.2
  let netlocRest :=
    if rest.take 2 = str "//" then
      ((rest.drop 2).takeWhile notNetlocDelim, (rest.drop 2).dropWhile notNetlocDelim)
    else (([] : Str), rest)
  let netloc := netlocRest.1
  let rest2 := netlocRest.2
  let fragSplit :=
    match splitOnFirst '#' rest2 with
    | some (before, after) => (before, after)
    | none => (rest2, ([] : Str))
  let querySplit :=
    match splitOnFirst '?' fragSplit.1 with
    | some (before, after) => (before, after)
    | none => (fragSplit.1, ([] : Str))
  (scheme, netloc, querySplit.1, querySplit.2, fragSplit.2)

/-- `urllib.parse.urlunsplit` from Lib/urllib/parse.py. -/
def urlunsplit (scheme netloc path query fragment : Str) : Str :=
  let url :=
    if netloc ≠ [] ∨ (path ≠ [] ∧ path.take 2 = str "//") then
      str "//" ++ netloc ++
        (if path ≠ [] ∧ path.head? ≠ some '/' then '/' :: path else path)
    else path
  let url := if scheme ≠ [] then scheme ++ ':' :: url else url
  let url := if query ≠ [] then url ++ '?' :: query else url
  if fragment ≠ [] then url ++ '#' :: fragment else url

/-- Python `s.replace(old, new, 1)`: replace the first occurrence of `pat`. -/
def replaceOnce (pat repl : Str) : Str → Str
  | [] => if pat.isPrefixOf [] then repl ++ List.drop pat.length [] else []
  | c :: rest =>
    if pat.isPrefixOf (c :: rest) then repl ++ (c :: rest).drop pat.length
    else c :: replaceOnce pat repl rest

/-- `_rewrite_location_header(location, prefix, pod_name)` from
src/identity/views.py lines 1388-1406; `pfx` is the external prefix argument
(named `prefix` in the source). -/
def rewrite_location_header (location pfx pod_name : Str) : Str :=
  if location = [] then location
  else
    let pod_root := str "/openclaw-agent-" ++ pod_name
    if pod_root.isPrefixOf location then
      replaceOnce pod_root (pyRStrip (fun c => c = '/') pfx) location
    else if location.head? = some '/' ∧ ¬ pfx.isPrefixOf location then
      pyRStrip (fun c => c = '/') pfx ++ location
    else
      let parsed := urlsplit location
      let scheme := parsed.1
      let netloc := parsed.2.1
      let path0 := parsed.2.2.1
      let query := parsed.2.2.2.1
      let fragment := parsed.2.2.2.2
      if scheme ≠ [] ∧ netloc ≠ [] then
        let path := if path0 = [] then str "/" else path0
        if pod_root.isPrefixOf path then
          urlunsplit scheme netloc (replaceOnce pod_root (pyRStrip (fun c => c = '/') pfx) path)
            query fragment
        else if path.head? = some '/' ∧ ¬ pfx.isPrefixOf path then
          urlunsplit scheme netloc (pyRStrip (fun c => c = '/') pfx ++ path) query fragment
        else location
      else location

/- ### Proxy header handling -/

/-- The hop-by-hop header names the proxy refuses to copy in either
direction. -/
def hopByHop : List Str :=
  [str "connection", str "keep-alive", str "proxy-authenticate",
   str "proxy-authorization", str "te", str "trailers",
   str "transfer-encoding", str "upgrade"]

/-- Lowercase a header name (Python `key.lower()`; header names are ASCII). -/
def lowerStr (s : Str) : Str := s.map Char.toLower

/-- Python dict assignment `d[key] = value` for a dict kept as an ordered
association list: replace in place when present, else append.  (Django's
response mapping replaces case-insensitively; the claims proved about these
maps depend only on which keys appear, never on replacement.) -/
def dictSet (d : List (Str × Str)) (key value : Str) : List (Str × Str) :=
  match d with
  | [] => [(key, value)]
  | (k, v) :: rest =>
    if k = key then (k, value) :: rest else (k, v) :: dictSet rest key value

/-- Python `dict.setdefault(key, value)`. -/
def dictSetdefault (d : List (Str × Str)) (key value : Str) : List (Str × Str) :=
  if (d.map Prod.fst).contains key then d else d ++ [(key, value)]

/-- The inbound request data consulted by `_proxy_request_headers`. -/
structure ProxyRequest where
  headers : List (Str × Str)
  isSecure : Bool
  host : Str
  remoteAddr : Option Str
deriving DecidableEq

/-- `_proxy_request_headers(request)` from src/identity/views.py lines
200-225; the `AGENT_GUI_INGRESS_HOST` setting is passed explicitly. -/
def proxy_request_headers (ingressHostSetting : Str) (req : ProxyRequest) :
    List (Str × Str) :=
  let base := req.headers.foldl
    (fun acc kv =>
      if hopByHop.contains (lowerStr kv.1) || lowerStr kv.1 == str "host" then acc
      else dictSet acc kv.1 kv.2)
    []
  let ih := pyStrip pyIsSpace ingressHostSetting
  let base := if ih ≠ [] then dictSet base (str "Host") ih else base
  let base := dictSetdefault base (str "X-Forwarded-Proto")
    (if req.isSecure then str "https" else str "http")
  let base := dictSetdefault base (str "X-Forwarded-Host") req.host
  match req.remoteAddr with
  | some addr => dictSetdefault base (str "X-Forwarded-For") addr
  | none => base

/-- The response-header copying loop of `agent_gui_proxy`
(src/identity/views.py lines 1376-1385): hop-by-hop headers are skipped,
`Location` is rewritten, everything else is copied. -/
def proxy_response_headers (upstream : List (Str × Str)) (pfx pod_name : Str) :
    List (Str × Str) :=
  upstream.foldl
    (fun acc kv =>
      if hopByHop.contains (lowerStr kv.1) then acc
      else if lowerStr kv.1 == str "location" then
        dictSet acc kv.1 (rewrite_location_header kv.2 pfx pod_name)
      else dictSet acc kv.1 kv.2)
    []

/- ### GUI exposure: settings, bodies and the ensure helper -/

/-- The Django settings consulted by the GUI gateway helpers. -/
structure GuiSettings where
  agentGuiPort : Nat := 18789
  agentGuiProxyPort : Nat := 18790
  agentGuiPathSetting : Str := []
  agentGuiHostSuffix : Str := []
  agentGuiIngressHost : Str := []
  agentGuiIngressClass : Str := []
  agentGuiTlsResolver : Str := []
deriving DecidableEq

/-- `_gui_path_prefix()` from src/identity/views.py lines 111-115. -/
def guiPathBase (cfg : GuiSettings) : Str :=
  let p := if cfg.agentGuiPathSetting = [] then str "/agents/gui"
           else cfg.agentGuiPathSetting
  let p := if p.head? = some '/' then p else '/' :: p
  pyRStrip (fun c => c = '/') p

/-- `_gui_path_for_pod(pod_name)` from src/identity/views.py. -/
def gui_path_for_pod (cfg : GuiSettings) (pod_name : Str) : Str :=
  guiPathBase cfg ++ str "/" ++ pod_name ++ str "/"

/-- `_gui_host_for_pod(pod_name)` from src/identity/views.py lines 122-127. -/
def gui_host_for_pod (cfg : GuiSettings) (pod_name : Str) : Option Str :=
  let suffix := lowerStr (pyStrip pyIsSpace cfg.agentGuiHostSuffix)
  if suffix ≠ [] then some (pod_name ++ str "." ++ suffix)
  else
    let host := lowerStr (pyStrip pyIsSpace cfg.agentGuiIngressHost)
    if host = [] then none else some host

/-- The V1Service body built by `_ensure_agent_gui_resources`. -/
structure ServiceBody where
  name : Str
  labels : List (Str × Str)
  portName : Str
  port : Nat
  targetPort : Nat
  protocol : Str
deriving DecidableEq

/-- The V1Endpoints body: one subset with a single address targeting the
pod. -/
structure EndpointsBody where
  name : Str
  labels : List (Str × Str)
  addresses : List Str
  targetRefName : Str
  targetRefNs : Str
  portName : Str
  port : Nat
  protocol : Str
deriving DecidableEq

/-- The V1Ingress body. -/
structure IngressBody where
  name : Str
  labels : List (Str × Str)
  annotations : List (Str × Str)
  ingressClassName : Option Str
  host : Option Str
  path : Str
  pathType : Str
  backendService : Str
  backendPort : Nat
deriving DecidableEq

/-- The spec of the Traefik Middleware custom object: the subdomain-mode
CSP-header variant or the path-mode strip-prefixes variant. -/
inductive MiddlewareSpec where
  | headersCsp (csp : Str)
  | stripPrefixes (prefixes : List Str)
deriving DecidableEq

/-- A Traefik Middleware custom object body. -/
structure MiddlewareBody where
  apiVersion : Str
  name : Str
  ns : Str
  labels : List (Str × Str)
  spec : MiddlewareSpec
deriving DecidableEq

/-- The Content-Security-Policy value of the subdomain-mode middleware. -/
def cspHeaderValue : Str :=
  str "default-src \x27self\x27; base-uri \x27none\x27; object-src \x27none\x27; frame-ancestors \x27none\x27; script-src \x27self\x27; style-src \x27self\x27 \x27unsafe-inline\x27 https://fonts.googleapis.com; img-src \x27self\x27 data: https:; font-src \x27self\x27 https://fonts.gstatic.com; connect-src \x27self\x27 ws: wss:"

/-- The nginx-style ingress annotations. -/
def nginxAnnotations : List (Str × Str) :=
  [(str "nginx.ingress.kubernetes.io/use-regex", str "true"),
   (str "nginx.ingress.kubernetes.io/rewrite-target", str "/$2"),
   (str "nginx.ingress.kubernetes.io/proxy-read-timeout", str "3600"),
   (str "nginx.ingress.kubernetes.io/proxy-send-timeout", str "3600"),
   (str "nginx.ingress.kubernetes.io/configuration-snippet",
    str "more_set_headers \"X-Frame-Options: SAMEORIGIN\";\nmore_set_headers \"Content-Security-Policy: frame-ancestors \x27self\x27\";\n")]

/-- The cluster resources managed by the GUI exposure helpers. -/
structure GuiState where
  services : Store ServiceBody
  endpoints : Store EndpointsBody
  ingresses : Store IngressBody
  middlewares : Store MiddlewareBody
deriving DecidableEq

/-- Errors `_ensure_agent_gui_resources` raises: the RuntimeError wrappers
around failed upserts, and the `ValueError("Pod has no IP yet.")` guard;
a ValueError is distinct from a (404) ApiException by construction. -/
inductive EnsureErr where
  | runtimeError (msg : Str)
  | valueError (msg : Str)
deriving DecidableEq

/-- Which custom-resource API groups the cluster serves; an upsert against an
unserved group raises, which is the per-group failure the middleware loop
tolerates. -/
structure CustomApiEnv where
  groupServed : Str → Bool

/-- One `_upsert_custom_object` call for a Traefik middleware, against a
given API group. -/
def upsert_middleware (env : CustomApiEnv) (st : Store MiddlewareBody)
    (group ns name : Str) (body : MiddlewareBody) :
    Except ApiErr (Store MiddlewareBody) :=
  if env.groupServed group then upsertResource st ns name body
  else .error notFoundErr

/-- The middleware group loop of `_ensure_agent_gui_resources`: try
`traefik.io/v1alpha1`, then `traefik.containo.us/v1alpha1`; the first success
wins; when both fail the last error is wrapped in a RuntimeError. -/
def middlewareLoop (env : CustomApiEnv) (st : Store MiddlewareBody) (ns name : Str)
    (mkBody : Str → MiddlewareBody) : Except EnsureErr (Store MiddlewareBody) :=
  match upsert_middleware env st (str "traefik.io") ns name
      (mkBody (str "traefik.io/v1alpha1")) with
  | .ok st2 => .ok st2
  | .error _ =>
    match upsert_middleware env st (str "traefik.containo.us") ns name
        (mkBody (str "traefik.containo.us/v1alpha1")) with
    | .ok st2 => .ok st2
    | .error _ =>
      .error (.runtimeError (str "Failed to upsert traefik middleware " ++ name))

/-- `_ensure_agent_gui_resources(client, v1, networking, namespace, pod,
owner_username)` from src/identity/views.py lines 309-505, as a state
transformer that also reports the raise, if any, leaving the stores exactly
as mutated up to that point. -/
def ensure_agent_gui_resources (cfg : GuiSettings) (env : CustomApiEnv)
    (st : GuiState) (ns : Str) (pod : PodInfo) (owner_username : Str) :
    GuiState × Except EnsureErr Unit :=
  let proxy_port := cfg.agentGuiProxyPort
  let service_name := gui_service_name pod.name
  let ingress_name := gui_ingress_name pod.name
  let ingress_class : Option Str :=
    if cfg.agentGuiIngressClass = [] then none else some cfg.agentGuiIngressClass
  let labels := [(str "app", str "openclaw-agent"), (str "owner", owner_username),
                 (str "pod", pod.name)]
  let service_body : ServiceBody :=
    { name := service_name, labels := labels, portName := str "gui",
      port := proxy_port, targetPort := proxy_port, protocol := str "TCP" }
  match upsertResource st.services ns service_name service_body with
  | .error _ =>
    (st, .error (.runtimeError (str "Failed to upsert service " ++ service_name)))
  | .ok services2 =>
    let st1 : GuiState := { st with services := services2 }
    if pod.podIp = [] then (st1, .error (.valueError (str "Pod has no IP yet.")))
    else
      let endpoints_body : EndpointsBody :=
        { name := service_name, labels := labels, addresses := [pod.podIp],
          targetRefName := pod.name, targetRefNs := ns,
          portName := str "gui", port := proxy_port, protocol := str "TCP" }
      match upsertResource st1.endpoints ns service_name endpoints_body with
      | .error _ =>
        (st1, .error (.runtimeError (str "Failed to upsert endpoints for " ++ service_name)))
      | .ok endpoints2 =>
        let st2 : GuiState := { st1 with endpoints := endpoints2 }
        let host := gui_host_for_pod cfg pod.name
        let path_base := guiPathBase cfg
        let subdomain_mode := pyStrip pyIsSpace cfg.agentGuiHostSuffix ≠ []
        let middleware_name := gui_middleware_name pod.name
        let afterMw : Except EnsureErr (GuiState × List (Str × Str) × Str × Str) :=
          if cfg.agentGuiIngressClass = str "traefik" then
            let mkBody : Str → MiddlewareBody := fun apiV =>
              { apiVersion := apiV, name := middleware_name, ns := ns, labels := labels,
                spec := if subdomain_mode then .headersCsp cspHeaderValue
                        else .stripPrefixes [path_base ++ str "/" ++ pod.name] }
            match middlewareLoop env st2.middlewares ns middleware_name mkBody with
            | .error e => .error e
            | .ok mws2 =>
              let annotations :=
                [(str "traefik.ingress.kubernetes.io/router.middlewares",
                  ns ++ str "-" ++ middleware_name ++ str "@kubernetescrd"),
                 (str "traefik.ingress.kubernetes.io/router.entrypoints", str "websecure"),
                 (str "traefik.ingress.kubernetes.io/router.tls", str "true")] ++
                (if pyStrip pyIsSpace cfg.agentGuiTlsResolver ≠ [] then
                  [(str "traefik.ingress.kubernetes.io/router.tls.certresolver",
                    pyStrip pyIsSpace cfg.agentGuiTlsResolver)]
                 else [])
              if subdomain_mode then
                .ok ({ st2 with middlewares := mws2 }, annotations, str "/", str "Prefix")
              else
                .ok ({ st2 with middlewares := mws2 }, annotations,
                     path_base ++ str "/" ++ pod.name, str "Prefix")
          else
            .ok (st2, nginxAnnotations,
                 path_base ++ str "/" ++ pod.name ++ str "(/|$)(.*)",
                 str "ImplementationSpecific")
        match afterMw with
        | .error e => (st2, .error e)
        | .ok (st3, annotations, path, pathType) =>
          let ingress_body : IngressBody :=
            { name := ingress_name, labels := labels, annotations := annotations,
              ingressClassName := ingress_class, host := host, path := path,
              pathType := pathType, backendService := service_name,
              backendPort := proxy_port }
          match upsertResource st3.ingresses ns ingress_name ingress_body with
          | .error _ =>
            (st3, .error (.runtimeError (str "Failed to upsert ingress " ++ ingress_name)))
          | .ok ing2 => ({ st3 with ingresses := ing2 }, .ok ())

/- ### Deleting the exposure set and the pod -/

/-- A deletion call observable in the delete-action trace. -/
inductive DelOp where
  | delIngress (name ns : Str)
  | delEndpoints (name ns : Str)
  | delService (name ns : Str)
  | delMiddleware (group name ns : Str)
  | delPod (name ns : Str)
deriving DecidableEq

/-- The outcome the cluster returns for each deletion call. -/
structure DeleteEnv where
  outcome : DelOp → Except ApiErr Unit

/-- Attempt one deletion, swallowing a 404 (`if getattr(exc, "status", None)
!= 404: raise`): the shared shape of the loop in
`_delete_agent_gui_resources` and of `_delete_custom_object`. -/
def tryDelete (env : DeleteEnv) (op : DelOp) : Except ApiErr Unit :=
  match env.outcome op with
  | .ok _ => .ok ()
  | .error e => if e.status = 404 then .ok () else .error e

/-- Run a sequence of 404-swallowing deletions, stopping at the first
propagating error; returns the trace of attempted calls with the result. -/
def runDeletes (env : DeleteEnv) : List DelOp → List DelOp × Except ApiErr Unit
  | [] => ([], .ok ())
  | op :: rest =>
    match tryDelete env op with
    | .ok _ =>
      let tr := runDeletes env rest
      (op :: tr.1, tr.2)
    | .error e => ([op], .error e)

/-- The deletion calls `_delete_agent_gui_resources` issues, in source order:
ingress, endpoints, service, then (for the traefik ingress class) the
middleware under both API groups. -/
def exposureDeleteOps (ingress_class ns pod_name : Str) : List DelOp :=
  [DelOp.delIngress (gui_ingress_name pod_name) ns,
   DelOp.delEndpoints (gui_service_name pod_name) ns,
   DelOp.delService (gui_service_name pod_name) ns] ++
  (if ingress_class = str "traefik" then
    [DelOp.delMiddleware (str "traefik.io") (gui_middleware_name pod_name) ns,
     DelOp.delMiddleware (str "traefik.containo.us") (gui_middleware_name pod_name) ns]
   else [])

/-- `_delete_agent_gui_resources(client, v1, networking, namespace, pod_name)`
from src/identity/views.py lines 508-535: attempt the exposure-set deletions
in order, each swallowing not-found independently, any other error
propagating. -/
def delete_agent_gui_resources (env : DeleteEnv) (ingress_class ns pod_name : Str) :
    List DelOp × Except ApiErr Unit :=
  runDeletes env (exposureDeleteOps ingress_class ns pod_name)

/-- The "delete" action of `agent_detail` (src/identity/views.py lines
1056-1062): resolve the pod, delete the GUI exposure set, then delete the pod
with the raw `delete_namespaced_pod`, whose errors propagate unswallowed.
The `_resolve_pod` outcome (the resolved namespace) is passed in; the trace
records every deletion call issued. -/
def agent_detail_delete (env : DeleteEnv) (resolved : Except ResolveErr Str)
    (ingress_class pod_name : Str) : List DelOp × Except ResolveErr Unit :=
  match resolved with
  | .error e => ([], .error e)
  | .ok ns =>
    let cleanup := delete_agent_gui_resources env ingress_class ns pod_name
    match cleanup.2 with
    | .error e => (cleanup.1, .error (.api e))
    | .ok _ =>
      match env.outcome (DelOp.delPod pod_name ns) with
      | .ok _ => (cleanup.1 ++ [DelOp.delPod pod_name ns], .ok ())
      | .error e => (cleanup.1 ++ [DelOp.delPod pod_name ns], .error (.api e))

/- ### The terminal bridge connect path -/

/-- The outcome of one `stream.stream(v1.connect_get_namespaced_pod_exec, ...)`
attempt: the call may raise, or return a stream whose `is_open()` is true or
false. -/
inductive ExecAttempt where
  | raises
  | opened (isOpen : Bool)
deriving DecidableEq

/-- An open exec stream handle, remembering the shell command backing it. -/
structure ExecStream where
  command : List Str
deriving DecidableEq

/-- `PodTerminalConsumer._open_stream` from src/identity/consumers.py lines
46-83: try `/bin/bash`; when that raises or the stream is not open, try
`/bin/sh`; return None when neither attempt yields an open stream. -/
def open_stream (attempt : List Str → ExecAttempt) : Option ExecStream :=
  match attempt [str "/bin/bash"] with
  | .opened true => some ⟨[str "/bin/bash"]⟩
  | _ =>
    match attempt [str "/bin/sh"] with
    | .opened true => some ⟨[str "/bin/sh"]⟩
    | _ => none

/-- The exec attempts `_open_stream` makes, in order: always the preferred
shell first, the secondary shell only when the first attempt did not yield an
open stream. -/
def open_stream_attempts (attempt : List Str → ExecAttempt) : List (List Str) :=
  match attempt [str "/bin/bash"] with
  | .opened true => [[str "/bin/bash"]]
  | _ => [[str "/bin/bash"], [str "/bin/sh"]]

/-- The externally observable actions of `PodTerminalConsumer.connect`. -/
inductive WsAction where
  | close
  | accept
  | startReader
deriving DecidableEq

/-- `PodTerminalConsumer.connect` from src/identity/consumers.py lines 12-44:
`authenticated` and `isHuman` reflect the scope checks; `podRead` is the
outcome of `read_namespaced_pod` (any raise inside the try block closes the
socket); returns the action list and the stored exec stream. -/
def terminal_connect (authenticated isHuman : Bool)
    (podRead : Except ApiErr PodInfo) (attempt : List Str → ExecAttempt) :
    List WsAction × Option ExecStream :=
  if authenticated = false then ([WsAction.close], none)
  else if isHuman = false then ([WsAction.close], none)
  else
    match podRead with
    | .error _ => ([WsAction.close], none)
    | .ok _ =>
      match open_stream attempt with
      | none => ([WsAction.close], none)
      | some s => ([WsAction.accept, WsAction.startReader], some s)

/- ### Generic facts about the Python string helpers -/

lemma head?_prefix_eq {l t : Str} (h : l <+: t) {c : Char} (hc : l.head? = some c) :
    t.head? = some c := by
  obtain ⟨r, rfl⟩ := h
  cases l with
  | nil => simp at hc
  | cons a s => simpa using hc

lemma pyStrip_head_not (p : Char → Bool) (s : Str) (c : Char)
    (h : (pyStrip p s).head? = some c) : ¬ p c := by
  have hpre : pyStrip p s <+: s.dropWhile p := List.rdropWhile_prefix p _
  have h2 : (s.dropWhile p).head? = some c := head?_prefix_eq hpre h
  have h3 := List.head?_dropWhile_not p s
  rw [h2] at h3
  simpa using h3.symm

lemma pyStrip_getLast_not (p : Char → Bool) (s : Str) (c : Char)
    (h : (pyStrip p s).getLast? = some c) : ¬ p c := by
  have h2 : ((s.dropWhile p).reverse.dropWhile p).head? = some c := by
    have heq : (pyStrip p s).getLast? = ((s.dropWhile p).reverse.dropWhile p).head? := by
      simp [pyStrip, List.rdropWhile]
    rwa [heq] at h
  have h3 := List.head?_dropWhile_not p (s.dropWhile p).reverse
  rw [h2] at h3
  simpa using h3.symm

lemma pyStrip_length_le (p : Char → Bool) (s : Str) :
    (pyStrip p s).length ≤ s.length :=
  le_trans (List.rdropWhile_prefix p _).length_le (List.dropWhile_suffix p).length_le

lemma pyStrip_ne_nil (p : Char → Bool) (s : Str) (c : Char)
    (hc : s.head? = some c) (hp : ¬ p c) : pyStrip p s ≠ [] := by
  intro hnil
  have hd : s.dropWhile p = s := by
    cases s with
    | nil => simp at hc
    | cons a t =>
      simp at hc
      subst hc
      exact List.dropWhile_cons_of_neg (by simpa using hp)
  rw [pyStrip, hd] at hnil
  have hall := List.rdropWhile_eq_nil_iff.mp hnil
  exact hp (hall c (List.mem_of_mem_head? hc))

lemma pyStrip_eq_self (p : Char → Bool) (s : Str)
    (h1 : ∀ c, s.head? = some c → ¬ p c) (h2 : ∀ c, s.getLast? = some c → ¬ p c) :
    pyStrip p s = s := by
  cases s with
  | nil => simp [pyStrip, List.rdropWhile]
  | cons a t =>
    have hd : (a :: t).dropWhile p = a :: t :=
      List.dropWhile_cons_of_neg (by simpa using h1 a rfl)
    rw [pyStrip, hd, List.rdropWhile_eq_self_iff]
    intro hl
    exact h2 _ (List.getLast?_eq_getLast _ hl)

lemma head?_take_succ (l : Str) (n : Nat) : (l.take (n + 1)).head? = l.head? := by
  cases l <;> simp

lemma natToDecAux_mem (P : Char → Prop) (hP : ∀ m, m < 10 → P (Nat.digitChar m)) :
    ∀ (fuel n : Nat) (acc : Str), (∀ c ∈ acc, P c) →
      ∀ c ∈ natToDecAux fuel n acc, P c := by
  intro fuel
  induction fuel with
  | zero => intro n acc hacc c hc; simpa [natToDecAux] using hacc c hc
  | succ f ih =>
    intro n acc hacc c hc
    simp only [natToDecAux] at hc
    split at hc
    · rcases List.mem_cons.mp hc with rfl | hmem
      · exact hP n (by omega)
      · exact hacc c hmem
    · refine ih (n / 10) (Nat.digitChar (n % 10) :: acc) ?_ c hc
      intro d hd
      rcases List.mem_cons.mp hd with rfl | hmem
      · exact hP (n % 10) (Nat.mod_lt n (by omega))
      · exact hacc d hmem

lemma natToDec_digit_codes (n : Nat) :
    ∀ c ∈ natToDec n, 48 ≤ c.toNat ∧ c.toNat ≤ 57 :=
  natToDecAux_mem _ (by decide) _ n [] (by simp)

lemma natToDecAux_append (fuel : Nat) :
    ∀ (n : Nat) (acc : Str), ∃ pre, natToDecAux fuel n acc = pre ++ acc := by
  induction fuel with
  | zero => intro n acc; exact ⟨[], rfl⟩
  | succ f ih =>
    intro n acc
    simp only [natToDecAux]
    split
    · exact ⟨[Nat.digitChar n], rfl⟩
    · obtain ⟨pre, hp⟩ := ih (n / 10) (Nat.digitChar (n % 10) :: acc)
      exact ⟨pre ++ [Nat.digitChar (n % 10)], by simp [hp]⟩

lemma natToDec_ne_nil (n : Nat) : natToDec n ≠ [] := by
  unfold natToDec
  simp only [natToDecAux]
  split
  · simp
  · obtain ⟨pre, hp⟩ := natToDecAux_append n (n / 10) [Nat.digitChar (n % 10)]
    rw [hp]
    simp

lemma take_succ_ne_nil {l : Str} (h : l ≠ []) (n : Nat) : l.take (n + 1) ≠ [] := by
  cases l with
  | nil => exact absurd rfl h
  | cons a t => simp

lemma slugify_head_ne_dash (u : Str) (c : Char) (h : (slugify u).head? = some c) :
    c ≠ '-' := by
  unfold slugify at h
  have hnot := pyStrip_head_not _ _ _ h
  intro hc
  subst hc
  simp at hnot

lemma normalize_namespace_eq (username : Str) (user_id : Nat) :
    normalize_namespace username user_id =
      normalize_k8s_name username (userFallback user_id) := rfl

lemma normalize_k8s_name_spec (value fallback : Str) (fc : Char)
    (hfh : fallback.head? = some fc) (hfc : fc ≠ '-') :
    normalize_k8s_name value fallback ≠ [] ∧
    (normalize_k8s_name value fallback).length ≤ 63 ∧
    (∀ c, (normalize_k8s_name value fallback).head? = some c → c ≠ '-') ∧
    (∀ c, (normalize_k8s_name value fallback).getLast? = some c → c ≠ '-') ∧
    (slugify value = [] →
      normalize_k8s_name value fallback =
        pyStrip (fun c => c = '-') (fallback.take 63)) := by
  have key : ∃ c, ((if slugify value = [] then fallback else slugify value).take 63).head? =
      some c ∧ c ≠ '-' := by
    by_cases h0 : slugify value = []
    · exact ⟨fc, by rw [if_pos h0]; exact (head?_take_succ _ 62).trans hfh, hfc⟩
    · obtain ⟨c0, hc0⟩ : ∃ c0, (slugify value).head? = some c0 := by
        cases hh : (slugify value).head? with
        | none => exact absurd (List.head?_eq_none_iff.mp hh) h0
        | some c0 => exact ⟨c0, rfl⟩
      exact ⟨c0, by rw [if_neg h0]; exact (head?_take_succ _ 62).trans hc0,
             slugify_head_ne_dash value c0 hc0⟩
  obtain ⟨c1, hc1, hc1d⟩ := key
  have hne : pyStrip (fun c => c = '-')
      ((if slugify value = [] then fallback else slugify value).take 63) ≠ [] :=
    pyStrip_ne_nil _ _ _ hc1 (by simpa using hc1d)
  have hmain : normalize_k8s_name value fallback =
      pyStrip (fun c => c = '-')
        ((if slugify value = [] then fallback else slugify value).take 63) := by
    simp only [normalize_k8s_name]
    rw [if_neg hne]
  refine ⟨?_, ?_, ?_, ?_, ?_⟩
  · rw [hmain]; exact hne
  · rw [hmain]
    exact le_trans (pyStrip_length_le _ _) (List.length_take_le ..)
  · intro c hc
    rw [hmain] at hc
    have hnot := pyStrip_head_not _ _ _ hc
    simpa using hnot
  · intro c hc
    rw [hmain] at hc
    have hnot := pyStrip_getLast_not _ _ _ hc
    simpa using hnot
  · intro h0
    rw [hmain, if_pos h0]

lemma userFallback_take_strip (user_id : Nat) :
    pyStrip (fun c => c = '-') ((userFallback user_id).take 63) =
      (userFallback user_id).take 63 := by
  have htake : (userFallback user_id).take 63 =
      str "user-" ++ (natToDec user_id).take 58 := by
    have h1 : (str "user-").take 63 = str "user-" := by decide
    have h2 : 63 - (str "user-").length = 58 := by decide
    rw [userFallback, List.take_append_eq_append_take, h1, h2]
  rw [htake]
  apply pyStrip_eq_self
  · intro c hc
    have hh : (str "user-" ++ (natToDec user_id).take 58).head? = some 'u' := rfl
    rw [hh] at hc
    have hcu : c = 'u' := (Option.some_inj.mp hc).symm
    subst hcu
    decide
  · intro c hc
    have h58 : (natToDec user_id).take 58 ≠ [] :=
      take_succ_ne_nil (natToDec_ne_nil user_id) 57
    rw [List.getLast?_append_of_ne_nil _ h58] at hc
    have hmem : c ∈ natToDec user_id :=
      List.take_subset _ _ (List.mem_of_mem_getLast? hc)
    have hcode := natToDec_digit_codes user_id c hmem
    intro hp
    have hcd : c = '-' := by simpa using hp
    subst hcd
    rw [show ('-').toNat = 45 from rfl] at hcode
    omega

lemma resolve_agent_namespace_unforced (env username : Str) (user_id : Nat)
    (henv : pyStrip pyIsSpace env = []) :
    resolve_agent_namespace env username user_id =
      (normalize_namespace username user_id, false) := by
  simp [resolve_agent_namespace, henv]

/-- C1 (amended): with no operator-level forced namespace override configured,
`resolve_agent_namespace` returns `(namespace, false)` where the namespace is
a non-empty string of length at most 63 with no leading or trailing `-`; when
the slug of the username is empty after normalization the result is the
fallback `user-<id>` truncated to 63 characters (which equals `user-<id>`
itself whenever the id has at most 58 decimal digits).  The function is a
pure, deterministic, total Lean function. -/
theorem resolve_agent_namespace_bounded (env username : Str) (user_id : Nat)
    (henv : pyStrip pyIsSpace env = []) :
    (resolve_agent_namespace env username user_id).2 = false ∧
    (resolve_agent_namespace env username user_id).1 ≠ [] ∧
    (resolve_agent_namespace env username user_id).1.length ≤ 63 ∧
    (∀ c, (resolve_agent_namespace env username user_id).1.head? = some c → c ≠ '-') ∧
    (∀ c, (resolve_agent_namespace env username user_id).1.getLast? = some c → c ≠ '-') ∧
    (slugify username = [] →
      (resolve_agent_namespace env username user_id).1 = (userFallback user_id).take 63) ∧
    ((userFallback user_id).length ≤ 63 → slugify username = [] →
      (resolve_agent_namespace env username user_id).1 = userFallback user_id) := by
  have hr1 : (resolve_agent_namespace env username user_id).1 =
      normalize_namespace username user_id := by
    rw [resolve_agent_namespace_unforced env username user_id henv]
  have hr2 : (resolve_agent_namespace env username user_id).2 = false := by
    rw [resolve_agent_namespace_unforced env username user_id henv]
  have base := normalize_k8s_name_spec username (userFallback user_id) 'u' rfl (by decide)
  rw [hr1, hr2, normalize_namespace_eq]
  refine ⟨rfl, base.1, base.2.1, base.2.2.1, base.2.2.2.1, ?_, ?_⟩
  · intro h0
    rw [base.2.2.2.2 h0, userFallback_take_strip]
  · intro hlen h0
    rw [base.2.2.2.2 h0, userFallback_take_strip]
    exact List.take_of_length_le hlen

/-- Witness for C1 at a concrete input: username "Ann Smith", user id 7,
no forced override. -/
theorem resolve_agent_namespace_bounded_witness :
    (resolve_agent_namespace [] (str "Ann Smith") 7).2 = false ∧
    (resolve_agent_namespace [] (str "Ann Smith") 7).1 ≠ [] ∧
    (resolve_agent_namespace [] (str "Ann Smith") 7).1.length ≤ 63 := by
  have h := resolve_agent_namespace_bounded [] (str "Ann Smith") 7 (by decide)
  exact ⟨h.1, h.2.1, h.2.2.1⟩

lemma natToDecAux_length_lower :
    ∀ (k n : Nat) (acc : Str) (fuel : Nat), 10 ^ k ≤ n → k < fuel →
      k + 1 + acc.length ≤ (natToDecAux fuel n acc).length := by
  intro k
  induction k with
  | zero =>
    intro n acc fuel h10 hf
    cases fuel with
    | zero => omega
    | succ f =>
      simp only [natToDecAux]
      split
      · simp only [List.length_cons]
        omega
      · obtain ⟨pre, hp⟩ := natToDecAux_append f (n / 10) (Nat.digitChar (n % 10) :: acc)
        rw [hp]
        simp only [List.length_append, List.length_cons]
        omega
  | succ k ih =>
    intro n acc fuel h10 hf
    cases fuel with
    | zero => omega
    | succ f =>
      have hge : (10 : Nat) ≤ 10 ^ (k + 1) := by
        calc (10 : Nat) = 10 ^ 1 := by norm_num
          _ ≤ 10 ^ (k + 1) := Nat.pow_le_pow_right (by norm_num) (by omega)
      have hn10 : ¬ n < 10 := by omega
      simp only [natToDecAux]
      rw [if_neg hn10]
      have hps : (10 : Nat) ^ (k + 1) = 10 ^ k * 10 := pow_succ 10 k
      have hdiv : 10 ^ k ≤ n / 10 := by
        rw [Nat.le_div_iff_mul_le (by norm_num : 0 < 10)]
        omega
      have hrec := ih (n / 10) (Nat.digitChar (n % 10) :: acc) f hdiv (by omega)
      simp only [List.length_cons] at hrec
      omega

/-- C1 counterexample: for a username whose slug is empty and a user id of 60
decimal digits, the result is NOT the fallback `user-<id>` (it is its 63-char
truncation), refuting the claim's "the result is the fallback user-<id>" for
every user id. -/
theorem resolve_agent_namespace_fallback_cex :
    slugify [] = [] ∧
    pyStrip pyIsSpace [] = [] ∧
    (resolve_agent_namespace [] [] (10 ^ 59)).1 ≠ userFallback (10 ^ 59) := by
  refine ⟨by decide, by decide, ?_⟩
  have h0 : pyStrip pyIsSpace ([] : Str) = [] := by decide
  have hres : (resolve_agent_namespace [] [] (10 ^ 59)).1 =
      normalize_namespace [] (10 ^ 59) := by
    rw [resolve_agent_namespace_unforced [] [] (10 ^ 59) h0]
  rw [hres, normalize_namespace_eq]
  have hlen :=
    (normalize_k8s_name_spec [] (userFallback (10 ^ 59)) 'u' rfl (by decide)).2.1
  intro heq
  rw [heq] at hlen
  have h5 : (str "user-").length = 5 := rfl
  have hlow : 60 ≤ (natToDec (10 ^ 59)).length := by
    have hsmall : (59 : Nat) < 10 ^ 59 + 1 := by
      have h1 : (59 : Nat) < 10 ^ 2 := by norm_num
      have h2 : (10 : Nat) ^ 2 ≤ 10 ^ 59 := Nat.pow_le_pow_right (by norm_num) (by norm_num)
      omega
    have h := natToDecAux_length_lower 59 (10 ^ 59) [] (10 ^ 59 + 1) (le_refl _) hsmall
    simpa [natToDec] using h
  rw [userFallback, List.length_append, h5] at hlen
  omega

/- ### The reconciler upsert pattern (C3) -/

lemma replaceStore_same {σ : Type} (st : Store σ) (ns name : Str) (v : σ)
    (h : lookupStore st ns name = some v) : replaceStore st ns name v = st := by
  induction st with
  | nil => rfl
  | cons kv rest ih =>
    obtain ⟨k, w⟩ := kv
    by_cases hk : k = (ns, name)
    · simp only [lookupStore, if_pos hk] at h
      simp only [replaceStore, if_pos hk, Option.some_inj.mp h]
    · simp only [lookupStore, if_neg hk] at h
      simp only [replaceStore, if_neg hk, ih h]

lemma lookupStore_replaceStore {σ : Type} (st : Store σ) (ns name : Str) (v b : σ)
    (h : lookupStore st ns name = some v) :
    lookupStore (replaceStore st ns name b) ns name = some b := by
  induction st with
  | nil => simp [lookupStore] at h
  | cons kv rest ih =>
    obtain ⟨k, w⟩ := kv
    by_cases hk : k = (ns, name)
    · simp only [replaceStore, if_pos hk, lookupStore, if_pos hk]
    · simp only [lookupStore, if_neg hk] at h
      simp only [replaceStore, if_neg hk, lookupStore, ih h]

lemma lookupStore_append_single {σ : Type} (st : Store σ) (ns name : Str) (b : σ)
    (h : lookupStore st ns name = none) :
    lookupStore (st ++ [((ns, name), b)]) ns name = some b := by
  induction st with
  | nil => simp [lookupStore]
  | cons kv rest ih =>
    obtain ⟨k, w⟩ := kv
    by_cases hk : k = (ns, name)
    · simp only [lookupStore, if_pos hk] at h
      exact Option.noConfusion h
    · simp only [lookupStore, if_neg hk] at h
      simpa only [List.cons_append, lookupStore, if_neg hk] using ih h

lemma upsertResource_of_none {σ : Type} (st : Store σ) (ns name : Str) (body : σ)
    (h : lookupStore st ns name = none) :
    upsertResource st ns name body = .ok (st ++ [((ns, name), body)]) := by
  simp [upsertResource, readResource, createResource, h, notFoundErr]

lemma upsertResource_of_some {σ : Type} (st : Store σ) (ns name : Str) (body v : σ)
    (h : lookupStore st ns name = some v) :
    upsertResource st ns name body = .ok (replaceStore st ns name body) := by
  simp [upsertResource, readResource, patchResource, h]

lemma upsertResource_lookup {σ : Type} (st st2 : Store σ) (ns name : Str) (body : σ)
    (h : upsertResource st ns name body = .ok st2) :
    lookupStore st2 ns name = some body := by
  cases hl : lookupStore st ns name with
  | none =>
    rw [upsertResource_of_none st ns name body hl] at h
    cases h
    exact lookupStore_append_single st ns name body hl
  | some v =>
    rw [upsertResource_of_some st ns name body v hl] at h
    cases h
    exact lookupStore_replaceStore st ns name v body hl

/-- C3: `upsert(namespace, desired_spec)` is idempotent for every managed
resource kind (all four upsert helpers share the `upsertResource` shape):
a successful call leaves the resource holding the desired spec, a second call
with the same spec returns the very same store without error (it reads the
now-present resource and patches it to the identical spec), and when the
resource is absent the first call goes through create. -/
theorem upsertResource_idempotent {σ : Type} (st : Store σ) (ns name : Str) (body : σ)
    (st2 : Store σ) (h : upsertResource st ns name body = .ok st2) :
    upsertResource st2 ns name body = .ok st2 ∧
    lookupStore st2 ns name = some body ∧
    upsertResource st2 ns name body = patchResource st2 ns name body ∧
    (lookupStore st ns name = none →
      upsertResource st ns name body = createResource st ns name body) ∧
    (∀ v, lookupStore st ns name = some v →
      upsertResource st ns name body = patchResource st ns name body) := by
  have hl2 : lookupStore st2 ns name = some body := upsertResource_lookup st st2 ns name body h
  have hsecond : upsertResource st2 ns name body = .ok (replaceStore st2 ns name body) :=
    upsertResource_of_some st2 ns name body body hl2
  have hrepl : replaceStore st2 ns name body = st2 := replaceStore_same st2 ns name body hl2
  refine ⟨by rw [hsecond, hrepl], hl2, ?_, ?_, ?_⟩
  · rw [hsecond, hrepl]
    simp [patchResource, hl2, hrepl]
  · intro hn
    rw [upsertResource_of_none st ns name body hn]
    simp [createResource, hn]
  · intro v hv
    rw [upsertResource_of_some st ns name body v hv]
    simp [patchResource, hv]

/-- Witness for C3: create into an empty store, then observe the second call
is a no-op success. -/
theorem upsertResource_idempotent_witness :
    upsertResource (σ := Nat) [] (str "ns") (str "web") 7 =
      .ok [((str "ns", str "web"), 7)] ∧
    upsertResource [((str "ns", str "web"), 7)] (str "ns") (str "web") 7 =
      .ok [((str "ns", str "web"), 7)] := by
  have h1 : upsertResource (σ := Nat) [] (str "ns") (str "web") 7 =
      .ok [((str "ns", str "web"), 7)] := rfl
  exact ⟨h1, (upsertResource_idempotent [] (str "ns") (str "web") 7 _ h1).1⟩

/- ### The bare raise in `_resolve_pod` (C9) -/

/-- C9: with cross-namespace lookup permitted, when the direct read raises a
404 and the all-namespaces exact-name scan returns no pod, `_resolve_pod`
never returns a value: it raises, and what it raises is the bare-raise
RuntimeError, not the original (already-handled) 404 ApiException. -/
theorem resolve_pod_bare_raise (st : KubeState) (pod_name ns : Str) (e : ApiErr)
    (hread : read_namespaced_pod st pod_name ns = .error e)
    (hstatus : e.status = 404)
    (hlist : list_pod_for_all_namespaces st pod_name = []) :
    resolve_pod st pod_name ns true = .error ResolveErr.bareRaise ∧
    ∀ e2, resolve_pod st pod_name ns true ≠ .error (.api e2) := by
  have hmain : resolve_pod st pod_name ns true = .error ResolveErr.bareRaise := by
    simp [resolve_pod, hread, hstatus, hlist]
  refine ⟨hmain, ?_⟩
  intro e2 h2
  rw [hmain] at h2
  simp at h2

/-- Witness for C9: an empty cluster. -/
theorem resolve_pod_bare_raise_witness :
    resolve_pod ⟨[]⟩ (str "agent-abc") (str "ann") true = .error ResolveErr.bareRaise := by
  exact (resolve_pod_bare_raise ⟨[]⟩ (str "agent-abc") (str "ann") notFoundErr rfl rfl rfl).1

/- ### The terminal bridge connect path (C8) -/

/-- C8: the terminal bridge always attempts the preferred shell first and
attempts the secondary shell exactly when the first attempt does not yield an
open stream; `_open_stream` returns None iff neither attempt yields an open
stream; in that case `connect` closes without accepting; and the connection
is accepted only when an open exec stream exists. -/
theorem terminal_connect_shell_fallback (authenticated isHuman : Bool)
    (podRead : Except ApiErr PodInfo) (attempt : List Str → ExecAttempt) :
    (open_stream_attempts attempt).head? = some [str "/bin/bash"] ∧
    (attempt [str "/bin/bash"] ≠ .opened true →
      open_stream_attempts attempt = [[str "/bin/bash"], [str "/bin/sh"]]) ∧
    (open_stream attempt = none ↔
      attempt [str "/bin/bash"] ≠ .opened true ∧ attempt [str "/bin/sh"] ≠ .opened true) ∧
    (open_stream attempt = none →
      terminal_connect authenticated isHuman podRead attempt = ([WsAction.close], none)) ∧
    (∀ acts stream, terminal_connect authenticated isHuman podRead attempt = (acts, stream) →
      WsAction.accept ∈ acts → ∃ s, stream = some s ∧ open_stream attempt = some s) := by
  refine ⟨?_, ?_, ?_, ?_, ?_⟩
  · unfold open_stream_attempts
    rcases hb : attempt [str "/bin/bash"] with _ | o
    · rfl
    · cases o <;> rfl
  · intro hb
    unfold open_stream_attempts
    rcases hb2 : attempt [str "/bin/bash"] with _ | o
    · rfl
    · cases o
      · rfl
      · exact absurd hb2 hb
  · constructor
    · intro hn
      unfold open_stream at hn
      rcases hb : attempt [str "/bin/bash"] with _ | o <;>
          rcases hs : attempt [str "/bin/sh"] with _ | o2 <;>
          rw [hb] at hn
      · simp [hb, hs]
      · cases o2 <;> simp_all
      · cases o <;> simp_all
      · cases o <;> cases o2 <;> simp_all
    · intro ⟨hb, hs⟩
      unfold open_stream
      rcases hb2 : attempt [str "/bin/bash"] with _ | o
      · rcases hs2 : attempt [str "/bin/sh"] with _ | o2
        · rfl
        · cases o2
          · rfl
          · exact absurd hs2 hs
      · cases o
        · rcases hs2 : attempt [str "/bin/sh"] with _ | o2
          · rfl
          · cases o2
            · rfl
            · exact absurd hs2 hs
        · exact absurd hb2 hb
  · intro hn
    unfold terminal_connect
    rcases authenticated with _ | _
    · rfl
    · rcases isHuman with _ | _
      · rfl
      · rcases podRead with e | p
        · rfl
        · simp [hn]
  · intro acts stream hconn hacc
    unfold terminal_connect at hconn
    rcases authenticated with _ | _
    · cases hconn; simp at hacc
    · rcases isHuman with _ | _
      · cases hconn; simp at hacc
      · rcases podRead with e | p
        · cases hconn; simp at hacc
        · rcases ho : open_stream attempt with _ | s
          · rw [ho] at hconn; cases hconn; simp at hacc
          · rw [ho] at hconn; cases hconn; exact ⟨s, rfl, rfl⟩

/-- Witness for C8: bash raises, sh opens; the attempt order and acceptance
are as stated. -/
theorem terminal_connect_shell_fallback_witness :
    (open_stream_attempts (fun cmd => if cmd = [str "/bin/bash"] then .raises
      else .opened true)) = [[str "/bin/bash"], [str "/bin/sh"]] ∧
    open_stream (fun cmd => if cmd = [str "/bin/bash"] then .raises
      else .opened true) = some ⟨[str "/bin/sh"]⟩ := by
  have h := terminal_connect_shell_fallback true true (.ok ⟨[], [], none, [], []⟩)
    (fun cmd => if cmd = [str "/bin/bash"] then .raises else .opened true)
  refine ⟨h.2.1 (by decide), by rfl⟩

/- ### Exposure-set deletion before pod deletion (C4) -/

lemma tryDelete_error (env : DeleteEnv) (op : DelOp) (e : ApiErr)
    (h : tryDelete env op = .error e) :
    env.outcome op = .error e ∧ e.status ≠ 404 := by
  unfold tryDelete at h
  split at h
  · exact absurd h (by simp)
  · rename_i e3 ho
    split at h
    · exact absurd h (by simp)
    · rename_i h4
      have h5 : e3 = e := by simpa using h
      subst h5
      exact ⟨ho, h4⟩

lemma runDeletes_ok_of_absent (env : DeleteEnv) (ops : List DelOp)
    (h : ∀ op ∈ ops, env.outcome op = .ok () ∨
      ∃ e, env.outcome op = .error e ∧ e.status = 404) :
    runDeletes env ops = (ops, .ok ()) := by
  induction ops with
  | nil => rfl
  | cons op rest ih =>
    have hop : tryDelete env op = .ok () := by
      rcases h op (by simp) with hok | ⟨e, he, hs⟩
      · simp [tryDelete, hok]
      · simp [tryDelete, he, hs]
    have hrest := ih (fun o ho => h o (by simp [ho]))
    simp [runDeletes, hop, hrest]

lemma runDeletes_ok_trace (env : DeleteEnv) (ops : List DelOp)
    (h : (runDeletes env ops).2 = .ok ()) : (runDeletes env ops).1 = ops := by
  induction ops with
  | nil => rfl
  | cons op rest ih =>
    cases ht : tryDelete env op with
    | ok u =>
      simp only [runDeletes, ht] at h ⊢
      rw [ih h]
    | error e =>
      simp [runDeletes, ht] at h

lemma runDeletes_trace_isPrefix (env : DeleteEnv) (ops : List DelOp) :
    (runDeletes env ops).1 <+: ops := by
  induction ops with
  | nil => simp [runDeletes]
  | cons op rest ih =>
    cases ht : tryDelete env op with
    | ok u =>
      simp only [runDeletes, ht]
      obtain ⟨t, htl⟩ := ih
      exact ⟨t, by simp [htl]⟩
    | error e =>
      simp only [runDeletes, ht]
      exact ⟨rest, rfl⟩

lemma runDeletes_error (env : DeleteEnv) (ops : List DelOp) (e : ApiErr)
    (h : (runDeletes env ops).2 = .error e) :
    e.status ≠ 404 ∧ ∃ op ∈ (runDeletes env ops).1, env.outcome op = .error e := by
  induction ops with
  | nil => simp [runDeletes] at h
  | cons op rest ih =>
    cases ht : tryDelete env op with
    | ok u =>
      simp only [runDeletes, ht] at h ⊢
      obtain ⟨hne, op2, hmem, hout⟩ := ih h
      exact ⟨hne, op2, List.mem_cons_of_mem _ hmem, hout⟩
    | error e2 =>
      simp only [runDeletes, ht] at h ⊢
      have h5 : e2 = e := by simpa using h
      subst h5
      obtain ⟨ho, h4⟩ := tryDelete_error env op e2 ht
      exact ⟨h4, op, by simp, ho⟩

lemma delPod_not_mem_exposure (ingress_class ns pod_name n ns2 : Str) :
    DelOp.delPod n ns2 ∉ exposureDeleteOps ingress_class ns pod_name := by
  by_cases hic : ingress_class = str "traefik" <;>
    simp [exposureDeleteOps, hic]

/-- C4: the delete action deletes the GUI exposure set strictly before the
pod: a pod-deletion call appears in the trace only after the exposure cleanup
succeeded, and then the full trace is the exposure deletions (ingress,
endpoints, service, plus any controller-specific middleware) followed by the
pod deletion; nothing is deleted when resolution fails; the cleanup treats a
not-found on any individual sub-resource as success; and a cleanup failure is
always a propagated non-404 error of one of the attempted deletions. -/
theorem agent_detail_delete_order (env : DeleteEnv) (resolved : Except ResolveErr Str)
    (ingress_class pod_name : Str) :
    (∀ e, resolved = .error e →
      (agent_detail_delete env resolved ingress_class pod_name).1 = []) ∧
    (∀ ns, resolved = .ok ns →
      DelOp.delPod pod_name ns ∈
          (agent_detail_delete env resolved ingress_class pod_name).1 →
        (delete_agent_gui_resources env ingress_class ns pod_name).2 = .ok () ∧
        (agent_detail_delete env resolved ingress_class pod_name).1 =
          exposureDeleteOps ingress_class ns pod_name ++
            [DelOp.delPod pod_name ns] ∧
        DelOp.delIngress (gui_ingress_name pod_name) ns ∈
          exposureDeleteOps ingress_class ns pod_name ∧
        DelOp.delEndpoints (gui_service_name pod_name) ns ∈
          exposureDeleteOps ingress_class ns pod_name ∧
        DelOp.delService (gui_service_name pod_name) ns ∈
          exposureDeleteOps ingress_class ns pod_name) ∧
    ((∀ op, env.outcome op = .ok () ∨ ∃ e, env.outcome op = .error e ∧ e.status = 404) →
      ∀ ns, (delete_agent_gui_resources env ingress_class ns pod_name).2 = .ok ()) ∧
    (∀ ns e, (delete_agent_gui_resources env ingress_class ns pod_name).2 = .error e →
      e.status ≠ 404 ∧
      ∃ op ∈ (delete_agent_gui_resources env ingress_class ns pod_name).1,
        env.outcome op = .error e) := by
  refine ⟨?_, ?_, ?_, ?_⟩
  · intro e hres
    simp [agent_detail_delete, hres]
  · intro ns hres hmem
    cases hc : (delete_agent_gui_resources env ingress_class ns pod_name).2 with
    | error e =>
      simp only [agent_detail_delete, hres, hc] at hmem
      have hsub : DelOp.delPod pod_name ns ∈ exposureDeleteOps ingress_class ns pod_name :=
        (runDeletes_trace_isPrefix env _).subset hmem
      exact absurd hsub (delPod_not_mem_exposure ingress_class ns pod_name pod_name ns)
    | ok u =>
      cases u
      have htr : (delete_agent_gui_resources env ingress_class ns pod_name).1 =
          exposureDeleteOps ingress_class ns pod_name :=
        runDeletes_ok_trace env _ hc
      have htrace : (agent_detail_delete env resolved ingress_class pod_name).1 =
          exposureDeleteOps ingress_class ns pod_name ++ [DelOp.delPod pod_name ns] := by
        cases ho : env.outcome (DelOp.delPod pod_name ns) <;>
          simp [agent_detail_delete, hres, hc, ho, htr]
      refine ⟨rfl, htrace, ?_, ?_, ?_⟩ <;>
        by_cases hic : ingress_class = str "traefik" <;>
        simp [exposureDeleteOps, hic]
  · intro hall ns
    have h := runDeletes_ok_of_absent env (exposureDeleteOps ingress_class ns pod_name)
      (fun op _ => hall op)
    simp [delete_agent_gui_resources, h]
  · intro ns e hc
    exact runDeletes_error env _ e hc

/-- Witness for C4: a cluster that accepts every deletion; the full trace is
the exposure set followed by the pod. -/
theorem agent_detail_delete_order_witness :
    (delete_agent_gui_resources ⟨fun _ => .ok ()⟩ (str "nginx") (str "ann")
        (str "agent-1")).2 = .ok () ∧
    (agent_detail_delete ⟨fun _ => .ok ()⟩ (.ok (str "ann")) (str "nginx")
        (str "agent-1")).1 =
      exposureDeleteOps (str "nginx") (str "ann") (str "agent-1") ++
        [DelOp.delPod (str "agent-1") (str "ann")] := by
  have h := agent_detail_delete_order ⟨fun _ => .ok ()⟩ (.ok (str "ann"))
    (str "nginx") (str "agent-1")
  refine ⟨h.2.2.1 (fun op => Or.inl rfl) (str "ann"), ?_⟩
  exact (h.2.1 (str "ann") rfl (by decide)).2.1

/- ### Hop-by-hop headers are never copied (C6) -/

lemma mem_dictSet (d : List (Str × Str)) (key value : Str) (kv : Str × Str)
    (h : kv ∈ dictSet d key value) : kv ∈ d ∨ kv.1 = key := by
  induction d with
  | nil =>
    simp only [dictSet, List.mem_singleton] at h
    exact Or.inr (by rw [h])
  | cons e rest ih =>
    obtain ⟨k2, v2⟩ := e
    by_cases hk : k2 = key
    · simp only [dictSet, if_pos hk] at h
      rcases List.mem_cons.mp h with rfl | hmem
      · exact Or.inr hk
      · exact Or.inl (List.mem_cons_of_mem _ hmem)
    · simp only [dictSet, if_neg hk] at h
      rcases List.mem_cons.mp h with rfl | hmem
      · exact Or.inl (by simp)
      · rcases ih hmem with h1 | h2
        · exact Or.inl (List.mem_cons_of_mem _ h1)
        · exact Or.inr h2

lemma mem_dictSetdefault (d : List (Str × Str)) (key value : Str) (kv : Str × Str)
    (h : kv ∈ dictSetdefault d key value) : kv ∈ d ∨ kv.1 = key := by
  unfold dictSetdefault at h
  split at h
  · exact Or.inl h
  · rcases List.mem_append.mp h with hmem | hmem
    · exact Or.inl hmem
    · simp only [List.mem_singleton] at hmem
      exact Or.inr (by rw [hmem])

lemma forall_mem_dictSet (P : Str → Prop) (d : List (Str × Str)) (key value : Str)
    (hd : ∀ kv ∈ d, P kv.1) (hkey : P key) :
    ∀ kv ∈ dictSet d key value, P kv.1 := by
  intro kv h
  rcases mem_dictSet d key value kv h with hin | heq
  · exact hd kv hin
  · rw [heq]; exact hkey

lemma forall_mem_dictSetdefault (P : Str → Prop) (d : List (Str × Str)) (key value : Str)
    (hd : ∀ kv ∈ d, P kv.1) (hkey : P key) :
    ∀ kv ∈ dictSetdefault d key value, P kv.1 := by
  intro kv h
  rcases mem_dictSetdefault d key value kv h with hin | heq
  · exact hd kv hin
  · rw [heq]; exact hkey

lemma proxy_request_headers_foldl_inv (headers : List (Str × Str))
    (acc : List (Str × Str)) (hacc : ∀ kv ∈ acc, lowerStr kv.1 ∉ hopByHop) :
    ∀ kv ∈ headers.foldl
        (fun acc kv =>
          if hopByHop.contains (lowerStr kv.1) || lowerStr kv.1 == str "host" then acc
          else dictSet acc kv.1 kv.2) acc,
      lowerStr kv.1 ∉ hopByHop := by
  induction headers generalizing acc with
  | nil => simpa using hacc
  | cons e rest ih =>
    simp only [List.foldl_cons]
    by_cases hcond : (hopByHop.contains (lowerStr e.1) || lowerStr e.1 == str "host") = true
    · rw [if_pos hcond]
      exact ih acc hacc
    · rw [if_neg hcond]
      refine ih (dictSet acc e.1 e.2) ?_
      refine forall_mem_dictSet (fun k => lowerStr k ∉ hopByHop) acc e.1 e.2 hacc ?_
      intro hmem
      exact hcond (by simp [List.contains, hmem])

lemma proxy_response_headers_foldl_inv (upstream : List (Str × Str)) (pfx pod_name : Str)
    (acc : List (Str × Str)) (hacc : ∀ kv ∈ acc, lowerStr kv.1 ∉ hopByHop) :
    ∀ kv ∈ upstream.foldl
        (fun acc kv =>
          if hopByHop.contains (lowerStr kv.1) then acc
          else if lowerStr kv.1 == str "location" then
            dictSet acc kv.1 (rewrite_location_header kv.2 pfx pod_name)
          else dictSet acc kv.1 kv.2) acc,
      lowerStr kv.1 ∉ hopByHop := by
  induction upstream generalizing acc with
  | nil => simpa using hacc
  | cons e rest ih =>
    simp only [List.foldl_cons]
    by_cases h1 : hopByHop.contains (lowerStr e.1) = true
    · rw [if_pos h1]
      exact ih acc hacc
    · rw [if_neg h1]
      have hP : lowerStr e.1 ∉ hopByHop := fun hmem => h1 (by simp [List.contains, hmem])
      by_cases h2 : (lowerStr e.1 == str "location") = true
      · rw [if_pos h2]
        exact ih _ (forall_mem_dictSet (fun k => lowerStr k ∉ hopByHop) acc e.1 _ hacc hP)
      · rw [if_neg h2]
        exact ih _ (forall_mem_dictSet (fun k => lowerStr k ∉ hopByHop) acc e.1 e.2 hacc hP)

/-- C6: the proxy never copies a hop-by-hop header in either direction:
every header forwarded upstream and every header copied onto the client
response has a lowercased name outside the hop-by-hop set (connection,
keep-alive, proxy-authenticate, proxy-authorization, te, trailers,
transfer-encoding, upgrade). -/
theorem proxy_headers_no_hop_by_hop (ingressHostSetting : Str) (req : ProxyRequest)
    (upstream : List (Str × Str)) (pfx pod_name : Str) :
    (∀ kv ∈ proxy_request_headers ingressHostSetting req, lowerStr kv.1 ∉ hopByHop) ∧
    (∀ kv ∈ proxy_response_headers upstream pfx pod_name, lowerStr kv.1 ∉ hopByHop) := by
  constructor
  · simp only [proxy_request_headers]
    have hbase := proxy_request_headers_foldl_inv req.headers [] (by simp)
    have hstage2 : ∀ kv ∈ (if pyStrip pyIsSpace ingressHostSetting ≠ [] then
        dictSet (req.headers.foldl
          (fun acc kv =>
            if hopByHop.contains (lowerStr kv.1) || lowerStr kv.1 == str "host" then acc
            else dictSet acc kv.1 kv.2) [])
          (str "Host") (pyStrip pyIsSpace ingressHostSetting)
        else req.headers.foldl
          (fun acc kv =>
            if hopByHop.contains (lowerStr kv.1) || lowerStr kv.1 == str "host" then acc
            else dictSet acc kv.1 kv.2) []),
        lowerStr kv.1 ∉ hopByHop := by
      split
      · exact forall_mem_dictSet (fun k => lowerStr k ∉ hopByHop) _ _ _ hbase (by decide)
      · exact hbase
    have hstage3 := forall_mem_dictSetdefault (fun k => lowerStr k ∉ hopByHop)
      _ (str "X-Forwarded-Proto") (if req.isSecure then str "https" else str "http")
      hstage2 (by decide)
    have hstage4 := forall_mem_dictSetdefault (fun k => lowerStr k ∉ hopByHop)
      _ (str "X-Forwarded-Host") req.host hstage3 (by decide)
    cases hra : req.remoteAddr with
    | none => exact hstage4
    | some addr =>
      exact forall_mem_dictSetdefault (fun k => lowerStr k ∉ hopByHop)
        _ (str "X-Forwarded-For") addr hstage4 (by decide)
  · simp only [proxy_response_headers]
    exact proxy_response_headers_foldl_inv upstream pfx pod_name [] (by simp)

/-- Witness for C6: on a request carrying a Connection header and a response
carrying a Transfer-Encoding header, the surviving Accept and Content-Type
entries are not hop-by-hop. -/
theorem proxy_headers_no_hop_by_hop_witness :
    lowerStr (str "Accept") ∉ hopByHop ∧ lowerStr (str "Content-Type") ∉ hopByHop := by
  have h := proxy_headers_no_hop_by_hop []
    ⟨[(str "Connection", str "keep-alive"), (str "Accept", str "text/html")],
      true, str "example.org", none⟩
    [(str "Transfer-Encoding", str "chunked"), (str "Content-Type", str "text/html")]
    (str "/agents/gui/pod7/") (str "pod7")
  exact ⟨h.1 (str "Accept", str "text/html") (by decide),
         h.2 (str "Content-Type", str "text/html") (by decide)⟩

/- ### The stale-name fallback of the GUI proxy (C2) -/

lemma read_namespaced_pod_error (st : KubeState) (name ns : Str) (e : ApiErr)
    (h : read_namespaced_pod st name ns = .error e) : e = notFoundErr := by
  unfold read_namespaced_pod at h
  cases hf : st.pods.find? (fun p => p.name == name && p.ns == ns) with
  | some p => rw [hf] at h; simp at h
  | none =>
    rw [hf] at h
    simp only [Except.error.injEq] at h
    exact h.symm

lemma mem_insertDesc (p : PodInfo) (l : List PodInfo) (q : PodInfo) :
    q ∈ insertDesc p l ↔ q = p ∨ q ∈ l := by
  induction l with
  | nil => simp [insertDesc]
  | cons r rest ih =>
    by_cases hr : startKey r < startKey p
    · simp only [insertDesc, if_pos hr, List.mem_cons]
    · simp only [insertDesc, if_neg hr, List.mem_cons, ih]
      tauto

lemma pairwise_insertDesc (p : PodInfo) (l : List PodInfo)
    (h : l.Pairwise (fun a b => startKey b ≤ startKey a)) :
    (insertDesc p l).Pairwise (fun a b => startKey b ≤ startKey a) := by
  induction l with
  | nil => simp [insertDesc]
  | cons q rest ih =>
    rw [List.pairwise_cons] at h
    by_cases hq : startKey q < startKey p
    · simp only [insertDesc, if_pos hq]
      rw [List.pairwise_cons]
      constructor
      · intro b hb
        rcases List.mem_cons.mp hb with rfl | hmem
        · omega
        · have := h.1 b hmem
          omega
      · rw [List.pairwise_cons]
        exact h
    · simp only [insertDesc, if_neg hq]
      rw [List.pairwise_cons]
      constructor
      · intro b hb
        rcases (mem_insertDesc p rest b).mp hb with rfl | hmem
        · omega
        · exact h.1 b hmem
      · exact ih h.2

lemma mem_sortPodsDesc (l : List PodInfo) (q : PodInfo) :
    q ∈ sortPodsDesc l ↔ q ∈ l := by
  induction l with
  | nil => simp [sortPodsDesc]
  | cons p rest ih =>
    show q ∈ insertDesc p (sortPodsDesc rest) ↔ _
    rw [mem_insertDesc, ih, List.mem_cons]

lemma pairwise_sortPodsDesc (l : List PodInfo) :
    (sortPodsDesc l).Pairwise (fun a b => startKey b ≤ startKey a) := by
  induction l with
  | nil => simp [sortPodsDesc]
  | cons p rest ih => exact pairwise_insertDesc p (sortPodsDesc rest) ih

lemma sortPodsDesc_head_max (l : List PodInfo) (p : PodInfo) (rest : List PodInfo)
    (h : sortPodsDesc l = p :: rest) : p ∈ l ∧ ∀ q ∈ l, startKey q ≤ startKey p := by
  have hp : p ∈ l := by
    rw [← mem_sortPodsDesc, h]
    simp
  refine ⟨hp, ?_⟩
  intro q hq
  have hq2 : q ∈ p :: rest := by
    rw [← h, mem_sortPodsDesc]
    exact hq
  rcases List.mem_cons.mp hq2 with rfl | hmem
  · exact le_refl _
  · have hpw := pairwise_sortPodsDesc l
    rw [h, List.pairwise_cons] at hpw
    exact hpw.1 q hmem

/-- C2: in the reverse-proxy path, when the direct pod read in the expected
namespace fails with not-found and the caller is a regular user, the gateway
falls back to a label-selector scan within the expected namespace; when no
pod matches it serves the diagnostic 404 page, otherwise it picks the
most-recently-started matching pod; whenever that pod has a different name
than the requested one, the outcome is a redirect to the corrected URL with
the subpath preserved, and a proxied response is never produced under a stale
name. -/
theorem agent_gui_proxy_stale_fallback (st : KubeState) (env username : Str)
    (user_id : Nat) (pod_name subpath : Str) (e : ApiErr)
    (hread : read_namespaced_pod st pod_name
        (resolve_agent_namespace env username user_id).1 = .error e) :
    (list_namespaced_pod st (resolve_agent_namespace env username user_id).1
        (agentSelector username) = [] →
      agent_gui_proxy_resolve st env username user_id false pod_name subpath =
        .notFoundPage) ∧
    (∀ pod rest,
      sortPodsDesc (list_namespaced_pod st
          (resolve_agent_namespace env username user_id).1
          (agentSelector username)) = pod :: rest →
      pod ∈ list_namespaced_pod st (resolve_agent_namespace env username user_id).1
          (agentSelector username) ∧
      (∀ q ∈ list_namespaced_pod st (resolve_agent_namespace env username user_id).1
          (agentSelector username), startKey q ≤ startKey pod) ∧
      (pod.name ≠ pod_name →
        agent_gui_proxy_resolve st env username user_id false pod_name subpath =
          .redirect (guiRedirectTarget pod.name subpath)) ∧
      (pod.name = pod_name →
        agent_gui_proxy_resolve st env username user_id false pod_name subpath =
          .proxy pod (resolve_agent_namespace env username user_id).1)) ∧
    (∀ p ns2,
      agent_gui_proxy_resolve st env username user_id false pod_name subpath =
        .proxy p ns2 → p.name = pod_name) := by
  have he : e = notFoundErr := read_namespaced_pod_error st pod_name _ e hread
  subst he
  have hres : resolve_pod st pod_name
      (resolve_agent_namespace env username user_id).1 false = .error (.api notFoundErr) := by
    simp [resolve_pod, hread]
  have hstage : agent_gui_proxy_resolve st env username user_id false pod_name subpath =
      (match sortPodsDesc (list_namespaced_pod st
          (resolve_agent_namespace env username user_id).1 (agentSelector username)) with
       | [] => ProxyResolution.notFoundPage
       | pod :: _ =>
         if pod.name ≠ pod_name then .redirect (guiRedirectTarget pod.name subpath)
         else .proxy pod (resolve_agent_namespace env username user_id).1) := by
    simp [agent_gui_proxy_resolve, hres, notFoundErr]
  refine ⟨?_, ?_, ?_⟩
  · intro hnil
    rw [hstage, hnil]
    simp [sortPodsDesc]
  · intro pod rest hsort
    obtain ⟨hmem, hmax⟩ := sortPodsDesc_head_max _ pod rest hsort
    refine ⟨hmem, hmax, ?_, ?_⟩
    · intro hne
      rw [hstage, hsort]
      simp [hne]
    · intro heq
      rw [hstage, hsort]
      simp [heq]
  · intro p ns2 hproxy
    rw [hstage] at hproxy
    cases hsort : sortPodsDesc (list_namespaced_pod st
        (resolve_agent_namespace env username user_id).1 (agentSelector username)) with
    | nil =>
      rw [hsort] at hproxy
      simp at hproxy
    | cons pod rest =>
      rw [hsort] at hproxy
      by_cases hne : pod.name ≠ pod_name
      · simp [hne] at hproxy
      · have heq : pod.name = pod_name := not_not.mp hne
        simp [hne] at hproxy
        obtain ⟨hp, -⟩ := hproxy
        rw [← hp]
        exact heq

/-- Witness for C2: requested pod `agent-abc123` is gone; the label scan in
namespace `ann` finds `agent-xyz789`, and the outcome is the corrected
redirect with the subpath preserved. -/
theorem agent_gui_proxy_stale_fallback_witness :
    agent_gui_proxy_resolve
      ⟨[{ name := str "agent-xyz789", ns := str "ann",
          startTime := some 5, podIp := str "10.0.0.9",
          labels := [(str "app", str "openclaw-agent"), (str "owner", str "ann")] }]⟩
      [] (str "ann") 1 false (str "agent-abc123") (str "x/y") =
      .redirect (guiRedirectTarget (str "agent-xyz789") (str "x/y")) := by
  have h := agent_gui_proxy_stale_fallback
    ⟨[{ name := str "agent-xyz789", ns := str "ann",
        startTime := some 5, podIp := str "10.0.0.9",
        labels := [(str "app", str "openclaw-agent"), (str "owner", str "ann")] }]⟩
    [] (str "ann") 1 (str "agent-abc123") (str "x/y") notFoundErr rfl
  exact ((h.2.1
    { name := str "agent-xyz789", ns := str "ann",
      startTime := some 5, podIp := str "10.0.0.9",
      labels := [(str "app", str "openclaw-agent"), (str "owner", str "ann")] }
    [] (by decide)).2.2.1 (by decide))

/- ### Ensure-exposure fails fast without a pod IP (C7) -/

lemma upsertResource_eq_ok {σ : Type} (st : Store σ) (ns name : Str) (body : σ) :
    upsertResource st ns name body = .ok
      (match lookupStore st ns name with
       | some _ => replaceStore st ns name body
       | none => st ++ [((ns, name), body)]) := by
  cases hl : lookupStore st ns name with
  | none =>
    rw [upsertResource_of_none st ns name body hl]
  | some v =>
    rw [upsertResource_of_some st ns name body v hl]

lemma lookupStore_upsert_self {σ : Type} (st : Store σ) (ns name : Str) (body : σ) :
    lookupStore
      (match lookupStore st ns name with
       | some _ => replaceStore st ns name body
       | none => st ++ [((ns, name), body)]) ns name = some body := by
  cases hl : lookupStore st ns name with
  | none => exact lookupStore_append_single st ns name body hl
  | some v => exact lookupStore_replaceStore st ns name v body hl

/-- C7: when the resolved pod has no IP yet, `_ensure_agent_gui_resources`
raises the distinct `ValueError("Pod has no IP yet.")` before any Endpoints
or Ingress upsert is attempted, leaving the Endpoints, Ingress and middleware
stores unchanged; and whenever the pod has an IP, the Endpoints object is
upserted with that IP as the sole address, targeting the pod by name. -/
theorem ensure_gui_resources_ip (cfg : GuiSettings) (env : CustomApiEnv)
    (st : GuiState) (ns : Str) (pod : PodInfo) (owner_username : Str) :
    (pod.podIp = [] →
      (ensure_agent_gui_resources cfg env st ns pod owner_username).2 =
        .error (.valueError (str "Pod has no IP yet.")) ∧
      (ensure_agent_gui_resources cfg env st ns pod owner_username).1.endpoints =
        st.endpoints ∧
      (ensure_agent_gui_resources cfg env st ns pod owner_username).1.ingresses =
        st.ingresses ∧
      (ensure_agent_gui_resources cfg env st ns pod owner_username).1.middlewares =
        st.middlewares) ∧
    (pod.podIp ≠ [] →
      ∃ body : EndpointsBody,
        lookupStore
          (ensure_agent_gui_resources cfg env st ns pod owner_username).1.endpoints
          ns (gui_service_name pod.name) = some body ∧
        body.addresses = [pod.podIp] ∧ body.targetRefName = pod.name) := by
  constructor
  · intro hip
    simp only [ensure_agent_gui_resources, upsertResource_eq_ok, if_pos hip]
    simp
  · intro hip
    refine ⟨{ name := gui_service_name pod.name,
              labels := [(str "app", str "openclaw-agent"), (str "owner", owner_username),
                         (str "pod", pod.name)],
              addresses := [pod.podIp], targetRefName := pod.name, targetRefNs := ns,
              portName := str "gui", port := cfg.agentGuiProxyPort,
              protocol := str "TCP" }, ?_, rfl, rfl⟩
    simp only [ensure_agent_gui_resources, upsertResource_eq_ok, if_neg hip]
    split
    · exact lookupStore_upsert_self _ _ _ _
    · rename_i st3 annotations path pathType heq
      split at heq
      · split at heq
        · simp at heq
        · split at heq <;>
            · simp only [Except.ok.injEq, Prod.mk.injEq] at heq
              obtain ⟨hst3, -⟩ := heq
              rw [← hst3]
              exact lookupStore_upsert_self _ _ _ _
      · simp only [Except.ok.injEq, Prod.mk.injEq] at heq
        obtain ⟨hst3, -⟩ := heq
        rw [← hst3]
        exact lookupStore_upsert_self _ _ _ _

/-- Witness for C7: a pod without an IP triggers the ValueError and leaves
the endpoints store unchanged (empty). -/
theorem ensure_gui_resources_ip_witness :
    (ensure_agent_gui_resources {} ⟨fun _ => true⟩
        ⟨[], [], [], []⟩ (str "ann")
        { name := str "agent-1", ns := str "ann" } (str "ann")).2 =
      .error (.valueError (str "Pod has no IP yet.")) ∧
    (ensure_agent_gui_resources {} ⟨fun _ => true⟩
        ⟨[], [], [], []⟩ (str "ann")
        { name := str "agent-1", ns := str "ann" } (str "ann")).1.endpoints = [] := by
  have h := ensure_gui_resources_ip {} ⟨fun _ => true⟩ ⟨[], [], [], []⟩ (str "ann")
    { name := str "agent-1", ns := str "ann" } (str "ann")
  have h1 := h.1 rfl
  exact ⟨h1.1, h1.2.1⟩

/- ### The Location-header rewrite (C5, C10) -/

lemma replaceOnce_at_head (pat repl s : Str) (h : pat <+: s) :
    replaceOnce pat repl s = repl ++ s.drop pat.length := by
  cases s with
  | nil =>
    have hp : pat = [] := List.prefix_nil.mp h
    subst hp
    simp [replaceOnce]
  | cons c rest =>
    have hb : pat.isPrefixOf (c :: rest) = true := List.isPrefixOf_iff_prefix.mpr h
    simp [replaceOnce, hb]

lemma rewrite_location_pod_root (pfx pod_name tail : Str) :
    rewrite_location_header (str "/openclaw-agent-" ++ pod_name ++ tail) pfx pod_name =
      pyRStrip (fun c => c = '/') pfx ++ tail := by
  have hpre : (str "/openclaw-agent-" ++ pod_name) <+:
      (str "/openclaw-agent-" ++ pod_name ++ tail) := ⟨tail, rfl⟩
  have hb : (str "/openclaw-agent-" ++ pod_name).isPrefixOf
      (str "/openclaw-agent-" ++ pod_name ++ tail) = true :=
    List.isPrefixOf_iff_prefix.mpr hpre
  have hne : str "/openclaw-agent-" ++ pod_name ++ tail ≠ [] := by
    simp [str]
  simp only [rewrite_location_header, if_neg hne, hb, if_pos]
  rw [replaceOnce_at_head _ _ _ hpre, List.drop_left]

lemma splitOnFirst_cons_self (sep : Char) (rest : Str) :
    splitOnFirst sep (sep :: rest) = some ([], rest) := by
  simp [splitOnFirst]

lemma splitOnFirst_none (sep : Char) (s : Str) (h : sep ∉ s) : splitOnFirst sep s = none := by
  induction s with
  | nil => rfl
  | cons c rest ih =>
    have hc : ¬ (c = sep) := fun he => h (by simp [he])
    simp [splitOnFirst, if_neg hc, ih (fun hm => h (List.mem_cons_of_mem _ hm))]

lemma splitOnFirst_append (sep : Char) (a b : Str) (ha : sep ∉ a) :
    splitOnFirst sep (a ++ b) =
      (splitOnFirst sep b).map (fun p => (a ++ p.1, p.2)) := by
  induction a with
  | nil =>
    cases hb : splitOnFirst sep b with
    | none => simp [hb]
    | some p => simp [hb]
  | cons c0 arest ih =>
    have hc0 : ¬ (c0 = sep) := fun he => ha (by simp [he])
    rw [List.cons_append]
    rw [splitOnFirst.eq_def]
    simp only [if_neg hc0]
    rw [ih (fun h => ha (List.mem_cons_of_mem _ h))]
    cases splitOnFirst sep b with
    | none => simp
    | some p => simp

lemma takeWhile_netloc (netloc tail : Str) (hn : ∀ c ∈ netloc, notNetlocDelim c = true)
    (ht : tail.head? = some '/') :
    (netloc ++ tail).takeWhile notNetlocDelim = netloc ∧
    (netloc ++ tail).dropWhile notNetlocDelim = tail := by
  induction netloc with
  | nil =>
    cases tail with
    | nil => simp at ht
    | cons c rest =>
      simp only [List.head?_cons, Option.some_inj] at ht
      subst ht
      have hslash : notNetlocDelim '/' = false := by decide
      constructor
      · simp [List.takeWhile_cons, hslash]
      · simp [List.dropWhile_cons, hslash]
  | cons c0 nrest ih =>
    have hc0 : notNetlocDelim c0 = true := hn c0 (by simp)
    have hrest := ih (fun c hc => hn c (List.mem_cons_of_mem _ hc))
    constructor
    · simp [List.takeWhile_cons, hc0, hrest.1]
    · simp [List.dropWhile_cons, hc0, hrest.2]

lemma head?_append_left (a b : Str) (c : Char) (h : a.head? = some c) :
    (a ++ b).head? = some c := by
  cases a with
  | nil => simp at h
  | cons x rest => simpa using h


lemma urlsplit_eq_base (sc : Char) (scs netloc path : Str)
    (hsc : sc.isAlpha = true)
    (hall : (sc :: scs).all isSchemeChar = true)
    (hnetloc : ∀ c ∈ netloc, notNetlocDelim c = true)
    (hpath : path.head? = some '/')
    (hpq : '?' ∉ path) (hpf : '#' ∉ path) :
    urlsplit ((sc :: scs) ++ ':' :: (str "//" ++ (netloc ++ path))) =
      ((sc :: scs).map Char.toLower, netloc, path, [], []) := by
  have hcolon : ':' ∉ (sc :: scs) := by
    intro hmem
    have h2 := List.all_eq_true.mp hall ':' hmem
    exact absurd h2 (by decide)
  have hsplit1 := splitOnFirst_append ':' (sc :: scs)
    (':' :: (str "//" ++ (netloc ++ path))) hcolon
  rw [splitOnFirst_cons_self] at hsplit1
  simp only [Option.map_some', List.append_nil] at hsplit1
  have htw := takeWhile_netloc netloc path hnetloc hpath
  have hdrop : (str "//" ++ (netloc ++ path)).drop 2 = netloc ++ path := rfl
  have htake : (str "//" ++ (netloc ++ path)).take 2 = str "//" := rfl
  simp only [urlsplit, hsplit1]
  rw [if_pos ⟨by simp, by simpa using hsc, hall⟩]
  rw [if_pos htake]
  simp only [hdrop, htw.1, htw.2]
  rw [splitOnFirst_none '#' path hpf, splitOnFirst_none '?' path hpq]

lemma urlsplit_eq_query (sc : Char) (scs netloc path q : Str)
    (hsc : sc.isAlpha = true)
    (hall : (sc :: scs).all isSchemeChar = true)
    (hnetloc : ∀ c ∈ netloc, notNetlocDelim c = true)
    (hpath : path.head? = some '/')
    (hpq : '?' ∉ path) (hpf : '#' ∉ path) (hqf : '#' ∉ q) :
    urlsplit ((sc :: scs) ++ ':' :: (str "//" ++ (netloc ++ (path ++ '?' :: q)))) =
      ((sc :: scs).map Char.toLower, netloc, path, q, []) := by
  have hcolon : ':' ∉ (sc :: scs) := by
    intro hmem
    have h2 := List.all_eq_true.mp hall ':' hmem
    exact absurd h2 (by decide)
  have hsplit1 := splitOnFirst_append ':' (sc :: scs)
    (':' :: (str "//" ++ (netloc ++ (path ++ '?' :: q)))) hcolon
  rw [splitOnFirst_cons_self] at hsplit1
  simp only [Option.map_some', List.append_nil] at hsplit1
  have htw := takeWhile_netloc netloc (path ++ '?' :: q) hnetloc
    (head?_append_left path ('?' :: q) '/' hpath)
  have hdrop : (str "//" ++ (netloc ++ (path ++ '?' :: q))).drop 2 =
      netloc ++ (path ++ '?' :: q) := rfl
  have htake : (str "//" ++ (netloc ++ (path ++ '?' :: q))).take 2 = str "//" := rfl
  have hnof : '#' ∉ path ++ '?' :: q := by
    intro hmem
    rcases List.mem_append.mp hmem with h1 | h1
    · exact hpf h1
    · rcases List.mem_cons.mp h1 with h2 | h2
      · exact absurd h2 (by decide)
      · exact hqf h2
  have hsplitq := splitOnFirst_append '?' path ('?' :: q) hpq
  rw [splitOnFirst_cons_self] at hsplitq
  simp only [Option.map_some', List.append_nil] at hsplitq
  simp only [urlsplit, hsplit1]
  rw [if_pos ⟨by simp, by simpa using hsc, hall⟩]
  rw [if_pos htake]
  simp only [hdrop, htw.1, htw.2]
  rw [splitOnFirst_none '#' _ hnof, hsplitq]

lemma urlsplit_eq_fragment (sc : Char) (scs netloc path f : Str)
    (hsc : sc.isAlpha = true)
    (hall : (sc :: scs).all isSchemeChar = true)
    (hnetloc : ∀ c ∈ netloc, notNetlocDelim c = true)
    (hpath : path.head? = some '/')
    (hpq : '?' ∉ path) (hpf : '#' ∉ path) :
    urlsplit ((sc :: scs) ++ ':' :: (str "//" ++ (netloc ++ (path ++ '#' :: f)))) =
      ((sc :: scs).map Char.toLower, netloc, path, [], f) := by
  have hcolon : ':' ∉ (sc :: scs) := by
    intro hmem
    have h2 := List.all_eq_true.mp hall ':' hmem
    exact absurd h2 (by decide)
  have hsplit1 := splitOnFirst_append ':' (sc :: scs)
    (':' :: (str "//" ++ (netloc ++ (path ++ '#' :: f)))) hcolon
  rw [splitOnFirst_cons_self] at hsplit1
  simp only [Option.map_some', List.append_nil] at hsplit1
  have htw := takeWhile_netloc netloc (path ++ '#' :: f) hnetloc
    (head?_append_left path ('#' :: f) '/' hpath)
  have hdrop : (str "//" ++ (netloc ++ (path ++ '#' :: f))).drop 2 =
      netloc ++ (path ++ '#' :: f) := rfl
  have htake : (str "//" ++ (netloc ++ (path ++ '#' :: f))).take 2 = str "//" := rfl
  have hsplitf := splitOnFirst_append '#' path ('#' :: f) hpf
  rw [splitOnFirst_cons_self] at hsplitf
  simp only [Option.map_some', List.append_nil] at hsplitf
  simp only [urlsplit, hsplit1]
  rw [if_pos ⟨by simp, by simpa using hsc, hall⟩]
  rw [if_pos htake]
  simp only [hdrop, htw.1, htw.2]
  rw [hsplitf, splitOnFirst_none '?' path hpq]

lemma urlsplit_eq_query_fragment (sc : Char) (scs netloc path q f : Str)
    (hsc : sc.isAlpha = true)
    (hall : (sc :: scs).all isSchemeChar = true)
    (hnetloc : ∀ c ∈ netloc, notNetlocDelim c = true)
    (hpath : path.head? = some '/')
    (hpq : '?' ∉ path) (hpf : '#' ∉ path) (hqf : '#' ∉ q) :
    urlsplit ((sc :: scs) ++ ':' ::
        (str "//" ++ (netloc ++ (path ++ '?' :: q ++ '#' :: f)))) =
      ((sc :: scs).map Char.toLower, netloc, path, q, f) := by
  have hcolon : ':' ∉ (sc :: scs) := by
    intro hmem
    have h2 := List.all_eq_true.mp hall ':' hmem
    exact absurd h2 (by decide)
  have hsplit1 := splitOnFirst_append ':' (sc :: scs)
    (':' :: (str "//" ++ (netloc ++ (path ++ '?' :: q ++ '#' :: f)))) hcolon
  rw [splitOnFirst_cons_self] at hsplit1
  simp only [Option.map_some', List.append_nil] at hsplit1
  have htw := takeWhile_netloc netloc (path ++ '?' :: q ++ '#' :: f) hnetloc
    (head?_append_left (path ++ '?' :: q) ('#' :: f) '/'
      (head?_append_left path ('?' :: q) '/' hpath))
  have hdrop : (str "//" ++ (netloc ++ (path ++ '?' :: q ++ '#' :: f))).drop 2 =
      netloc ++ (path ++ '?' :: q ++ '#' :: f) := rfl
  have htake : (str "//" ++ (netloc ++ (path ++ '?' :: q ++ '#' :: f))).take 2 =
      str "//" := rfl
  have hnof : '#' ∉ path ++ '?' :: q := by
    intro hmem
    rcases List.mem_append.mp hmem with h1 | h1
    · exact hpf h1
    · rcases List.mem_cons.mp h1 with h2 | h2
      · exact absurd h2 (by decide)
      · exact hqf h2
  have hsplitf := splitOnFirst_append '#' (path ++ '?' :: q) ('#' :: f) hnof
  rw [splitOnFirst_cons_self] at hsplitf
  simp only [Option.map_some', List.append_nil] at hsplitf
  have hsplitq := splitOnFirst_append '?' path ('?' :: q) hpq
  rw [splitOnFirst_cons_self] at hsplitq
  simp only [Option.map_some', List.append_nil] at hsplitq
  simp only [urlsplit, hsplit1]
  rw [if_pos ⟨by simp, by simpa using hsc, hall⟩]
  rw [if_pos htake]
  simp only [hdrop, htw.1, htw.2]
  rw [hsplitf, hsplitq]

lemma rewrite_location_absolute_general (location pfx pod_name : Str) (sc : Char)
    (scheme netloc path query fragment : Str)
    (hhead : location.head? = some sc) (hsc : sc.isAlpha = true)
    (hsplit : urlsplit location = (scheme, netloc, path, query, fragment))
    (hsne : scheme ≠ []) (hnne : netloc ≠ []) (hpne : path ≠ []) :
    rewrite_location_header location pfx pod_name =
      (if (str "/openclaw-agent-" ++ pod_name).isPrefixOf path then
        urlunsplit scheme netloc
          (replaceOnce (str "/openclaw-agent-" ++ pod_name)
            (pyRStrip (fun c => c = '/') pfx) path) query fragment
      else if path.head? = some '/' ∧ ¬ pfx.isPrefixOf path then
        urlunsplit scheme netloc (pyRStrip (fun c => c = '/') pfx ++ path) query fragment
      else location) := by
  have hne : location ≠ [] := by
    intro h
    rw [h] at hhead
    simp at hhead
  have hslash : sc ≠ '/' := by
    intro h
    rw [h] at hsc
    exact absurd hsc (by decide)
  have hnp : ¬ (str "/openclaw-agent-" ++ pod_name) <+: location := by
    intro hp
    have h2 := head?_prefix_eq hp
      (head?_append_left (str "/openclaw-agent-") pod_name '/' rfl)
    rw [hhead] at h2
    exact hslash (Option.some_inj.mp h2)
  have hnpb : ¬ ((str "/openclaw-agent-" ++ pod_name).isPrefixOf location = true) :=
    fun h => hnp (List.isPrefixOf_iff_prefix.mp h)
  have hcond2 : ¬ (location.head? = some '/' ∧ ¬ pfx.isPrefixOf location = true) := by
    intro h
    obtain ⟨h1, -⟩ := h
    rw [hhead] at h1
    exact hslash (Option.some_inj.mp h1)
  simp only [rewrite_location_header, if_neg hne, if_neg hnpb, if_neg hcond2, hsplit]
  rw [if_pos ⟨hsne, hnne⟩, if_neg hpne]

lemma urlunsplit_base (scheme netloc path2 : Str) (hn : netloc ≠ [])
    (hp : path2.head? = some '/') (hs : scheme ≠ []) :
    urlunsplit scheme netloc path2 [] [] =
      scheme ++ ':' :: (str "//" ++ netloc ++ path2) := by
  simp only [urlunsplit]
  rw [if_pos (Or.inl hn)]
  have hins : ¬ (path2 ≠ [] ∧ path2.head? ≠ some '/') := fun h => h.2 hp
  rw [if_neg hins, if_pos hs, if_neg (by simp : ¬ (([] : Str) ≠ [])),
    if_neg (by simp : ¬ (([] : Str) ≠ []))]

lemma urlunsplit_qf (scheme netloc path2 q f : Str) (hn : netloc ≠ [])
    (hp : path2.head? = some '/') (hs : scheme ≠ []) (hq : q ≠ []) (hf : f ≠ []) :
    urlunsplit scheme netloc path2 q f =
      ((scheme ++ ':' :: (str "//" ++ netloc ++ path2)) ++ '?' :: q) ++ '#' :: f := by
  simp only [urlunsplit]
  rw [if_pos (Or.inl hn)]
  have hins : ¬ (path2 ≠ [] ∧ path2.head? ≠ some '/') := fun h => h.2 hp
  rw [if_neg hins, if_pos hs, if_pos hq, if_pos hf]

/-- C5: the Location-header rewrite maps a value that is an absolute path
rooted at the pod's internal root path `/openclaw-agent-<pod>` to the same
path under the (right-slash-stripped) external prefix; and for an absolute
URL whose path component is so rooted, the same substitution is applied to
the path while the scheme and host are preserved. -/
theorem rewrite_location_header_maps_root (sc : Char)
    (scs netloc pod_name tail pfx : Str)
    (hsc : sc.isAlpha = true)
    (hall : (sc :: scs).all isSchemeChar = true)
    (hlower : (sc :: scs).map Char.toLower = sc :: scs)
    (hnetloc_ne : netloc ≠ [])
    (hnetloc : ∀ c ∈ netloc, notNetlocDelim c = true)
    (hpodq : '?' ∉ pod_name) (hpodf : '#' ∉ pod_name)
    (htailq : '?' ∉ tail) (htailf : '#' ∉ tail)
    (hpfxhead : (pyRStrip (fun c => c = '/') pfx).head? = some '/') :
    rewrite_location_header (str "/openclaw-agent-" ++ pod_name ++ tail) pfx pod_name =
      pyRStrip (fun c => c = '/') pfx ++ tail ∧
    rewrite_location_header
        ((sc :: scs) ++ ':' :: (str "//" ++
          (netloc ++ (str "/openclaw-agent-" ++ pod_name ++ tail)))) pfx pod_name =
      (sc :: scs) ++ ':' :: (str "//" ++ netloc ++
        (pyRStrip (fun c => c = '/') pfx ++ tail)) := by
  refine ⟨rewrite_location_pod_root pfx pod_name tail, ?_⟩
  have hpathq : '?' ∉ str "/openclaw-agent-" ++ pod_name ++ tail := by
    intro hmem
    rcases List.mem_append.mp hmem with h1 | h1
    · rcases List.mem_append.mp h1 with h2 | h2
      · exact absurd h2 (by decide)
      · exact hpodq h2
    · exact htailq h1
  have hpathf : '#' ∉ str "/openclaw-agent-" ++ pod_name ++ tail := by
    intro hmem
    rcases List.mem_append.mp hmem with h1 | h1
    · rcases List.mem_append.mp h1 with h2 | h2
      · exact absurd h2 (by decide)
      · exact hpodf h2
    · exact htailf h1
  have hpathhead : (str "/openclaw-agent-" ++ pod_name ++ tail).head? = some '/' :=
    head?_append_left _ tail '/' (head?_append_left (str "/openclaw-agent-") pod_name '/' rfl)
  have hsplit := urlsplit_eq_base sc scs netloc
    (str "/openclaw-agent-" ++ pod_name ++ tail) hsc hall hnetloc hpathhead hpathq hpathf
  rw [hlower] at hsplit
  have hgen := rewrite_location_absolute_general
    ((sc :: scs) ++ ':' :: (str "//" ++ (netloc ++ (str "/openclaw-agent-" ++ pod_name ++ tail))))
    pfx pod_name sc (sc :: scs) netloc (str "/openclaw-agent-" ++ pod_name ++ tail) [] []
    (by simp) hsc hsplit (by simp) hnetloc_ne (by simp [str])
  rw [hgen]
  have hpre : (str "/openclaw-agent-" ++ pod_name) <+:
      (str "/openclaw-agent-" ++ pod_name ++ tail) := ⟨tail, rfl⟩
  rw [if_pos (List.isPrefixOf_iff_prefix.mpr hpre)]
  rw [replaceOnce_at_head _ _ _ hpre, List.drop_left]
  rw [urlunsplit_base (sc :: scs) netloc _ hnetloc_ne
    (head?_append_left _ tail '/' hpfxhead) (by simp)]

/-- Witness for C5: the two examples from the spec. -/
theorem rewrite_location_header_maps_root_witness :
    rewrite_location_header (str "/openclaw-agent-pod7/settings")
        (str "/agents/gui/pod7") (str "pod7") = str "/agents/gui/pod7/settings" ∧
    rewrite_location_header (str "https://x/openclaw-agent-pod7/a")
        (str "/agents/gui/pod7") (str "pod7") = str "https://x/agents/gui/pod7/a" := by
  constructor
  · have h := (rewrite_location_header_maps_root 'h' (str "ttps") (str "x") (str "pod7")
      (str "/settings") (str "/agents/gui/pod7") (by decide) (by decide) (by decide)
      (by decide) (by decide) (by decide) (by decide) (by decide) (by decide) (by decide)).1
    calc rewrite_location_header (str "/openclaw-agent-pod7/settings")
          (str "/agents/gui/pod7") (str "pod7")
        = rewrite_location_header (str "/openclaw-agent-" ++ str "pod7" ++ str "/settings")
          (str "/agents/gui/pod7") (str "pod7") := by decide
      _ = pyRStrip (fun c => c = '/') (str "/agents/gui/pod7") ++ str "/settings" := h
      _ = str "/agents/gui/pod7/settings" := by decide
  · have h := (rewrite_location_header_maps_root 'h' (str "ttps") (str "x") (str "pod7")
      (str "/a") (str "/agents/gui/pod7") (by decide) (by decide) (by decide)
      (by decide) (by decide) (by decide) (by decide) (by decide) (by decide) (by decide)).2
    calc rewrite_location_header (str "https://x/openclaw-agent-pod7/a")
          (str "/agents/gui/pod7") (str "pod7")
        = rewrite_location_header
            (('h' :: str "ttps") ++ ':' :: (str "//" ++
              (str "x" ++ (str "/openclaw-agent-" ++ str "pod7" ++ str "/a"))))
          (str "/agents/gui/pod7") (str "pod7") := by decide
      _ = ('h' :: str "ttps") ++ ':' :: (str "//" ++ str "x" ++
            (pyRStrip (fun c => c = '/') (str "/agents/gui/pod7") ++ str "/a")) := h
      _ = str "https://x/agents/gui/pod7/a" := by decide

/-- C10: the Location rewrite remaps every absolute-path value, not only
those rooted at the pod root: a non-empty value starting with `/` that
starts with neither the pod's internal root path nor the external prefix
gets the right-slash-stripped prefix prepended; and the same rule applies to
the path component of an absolute URL with scheme and host present (shown
here with query and fragment in place, scheme and host preserved). -/
theorem rewrite_location_header_prepends_absolute (location pfx pod_name : Str)
    (sc : Char) (scs netloc path q f : Str)
    (hne : location ≠ []) (hhead : location.head? = some '/')
    (hroot : ¬ (str "/openclaw-agent-" ++ pod_name) <+: location)
    (hnpfx : ¬ pfx <+: location)
    (hsc : sc.isAlpha = true)
    (hall : (sc :: scs).all isSchemeChar = true)
    (hlower : (sc :: scs).map Char.toLower = sc :: scs)
    (hnetloc_ne : netloc ≠ [])
    (hnetloc : ∀ c ∈ netloc, notNetlocDelim c = true)
    (hpathhead : path.head? = some '/')
    (hpq : '?' ∉ path) (hpf : '#' ∉ path) (hqf : '#' ∉ q)
    (hqne : q ≠ []) (hfne : f ≠ [])
    (hroot2 : ¬ (str "/openclaw-agent-" ++ pod_name) <+: path)
    (hnpfx2 : ¬ pfx <+: path)
    (hpfxhead : (pyRStrip (fun c => c = '/') pfx).head? = some '/') :
    rewrite_location_header location pfx pod_name =
      pyRStrip (fun c => c = '/') pfx ++ location ∧
    rewrite_location_header
        ((sc :: scs) ++ ':' :: (str "//" ++ (netloc ++ (path ++ '?' :: q ++ '#' :: f))))
        pfx pod_name =
      (((sc :: scs) ++ ':' :: (str "//" ++ netloc ++
        (pyRStrip (fun c => c = '/') pfx ++ path))) ++ '?' :: q) ++ '#' :: f := by
  constructor
  · have hnpb : ¬ ((str "/openclaw-agent-" ++ pod_name).isPrefixOf location = true) :=
      fun h => hroot (List.isPrefixOf_iff_prefix.mp h)
    have hcond2 : (location.head? = some '/' ∧ ¬ pfx.isPrefixOf location = true) :=
      ⟨hhead, fun h => hnpfx (List.isPrefixOf_iff_prefix.mp h)⟩
    simp only [rewrite_location_header, if_neg hne, if_neg hnpb, if_pos hcond2]
  · have hsplit := urlsplit_eq_query_fragment sc scs netloc path q f hsc hall
      hnetloc hpathhead hpq hpf hqf
    rw [hlower] at hsplit
    have hpne : path ≠ [] := by
      intro h
      rw [h] at hpathhead
      simp at hpathhead
    have hgen := rewrite_location_absolute_general
      ((sc :: scs) ++ ':' :: (str "//" ++ (netloc ++ (path ++ '?' :: q ++ '#' :: f))))
      pfx pod_name sc (sc :: scs) netloc path q f
      (by simp) hsc hsplit (by simp) hnetloc_ne hpne
    rw [hgen]
    have hnpb2 : ¬ ((str "/openclaw-agent-" ++ pod_name).isPrefixOf path = true) :=
      fun h => hroot2 (List.isPrefixOf_iff_prefix.mp h)
    rw [if_neg hnpb2,
      if_pos ⟨hpathhead, fun h => hnpfx2 (List.isPrefixOf_iff_prefix.mp h)⟩]
    rw [urlunsplit_qf (sc :: scs) netloc _ q f hnetloc_ne
      (head?_append_left _ path '/' hpfxhead) (by simp) hqne hfne]

/-- Witness for C10: `/css/app.css` gets the prefix prepended, and the path
component of `https://x/login?next=1#top` does too. -/
theorem rewrite_location_header_prepends_absolute_witness :
    rewrite_location_header (str "/css/app.css") (str "/agents/gui/pod7/")
        (str "pod7") = str "/agents/gui/pod7/css/app.css" ∧
    rewrite_location_header (str "https://x/login?next=1#top")
        (str "/agents/gui/pod7/") (str "pod7") =
      str "https://x/agents/gui/pod7/login?next=1#top" := by
  have h := rewrite_location_header_prepends_absolute
    (str "/css/app.css") (str "/agents/gui/pod7/") (str "pod7")
    'h' (str "ttps") (str "x") (str "/login") (str "next=1") (str "top")
    (by decide) (by decide) (by decide) (by decide) (by decide) (by decide)
    (by decide) (by decide) (by decide) (by decide) (by decide) (by decide)
    (by decide) (by decide) (by decide) (by decide) (by decide) (by decide)
  constructor
  · calc rewrite_location_header (str "/css/app.css") (str "/agents/gui/pod7/")
          (str "pod7")
        = pyRStrip (fun c => c = '/') (str "/agents/gui/pod7/") ++ str "/css/app.css" :=
          h.1
      _ = str "/agents/gui/pod7/css/app.css" := by decide
  · calc rewrite_location_header (str "https://x/login?next=1#top")
          (str "/agents/gui/pod7/") (str "pod7")
        = rewrite_location_header
            (('h' :: str "ttps") ++ ':' :: (str "//" ++
              (str "x" ++ (str "/login" ++ '?' :: str "next=1" ++ '#' :: str "top"))))
            (str "/agents/gui/pod7/") (str "pod7") := by decide
      _ = ((('h' :: str "ttps") ++ ':' :: (str "//" ++ str "x" ++
            (pyRStrip (fun c => c = '/') (str "/agents/gui/pod7/") ++ str "/login"))) ++
            '?' :: str "next=1") ++ '#' :: str "top" := h.2
      _ = str "https://x/agents/gui/pod7/login?next=1#top" := by decide
